import Mathlib

/-!
# Verification of the hotel-demand-simulator core

A shallow embedding of the repository's core logic
(`src/utils/models.py`, `src/utils/supply_manager.py`,
`src/utils/pricing_engine.py`, `src/simulator.py`) in Lean 4, together
with theorems settling the frozen claims about it.

Modelling conventions:
* Python `float` prices are embedded as exact rationals (`ℚ`);
  Python `int` as `ℤ` (room counts, days) or `ℕ` (trip ids, list sizes).
* The MongoDB `daily_supply` collection (keyed by hotel_id and day, with a
  unique index) is embedded as a list of `DailySupply` records with
  `find?`-based point lookup and upsert-style save, for a single fixed
  simulation id (the `simulation_id` field, constant across one run, and
  the `updated_at` timestamp are dropped).
* Randomness is embedded by passing the draws explicitly: a `random.gauss`
  or `random.uniform` draw becomes an unconstrained parameter, a
  `random.randint(a, b)` draw a parameter constrained to `[a, b]` in the
  theorems, and `random.choice` over a Python set a natural-number index
  into the sorted list of the set's elements, taken modulo its size.
-/

namespace HotelSim

/-- `SupplierType` from src/utils/models.py (lines 12-15). -/
inductive SupplierType where
  | hotel
  | travelAgent
deriving DecidableEq, Repr

/-- The per-hotel lead-time multiplier table.  In the source this is the
`dynamic_pricing_config` dict of `Hotel`; every hotel ends up with all four
keys present (`Hotel.__post_init__` fills them in when the dict is empty,
models.py lines 33-41), so it is embedded as a total structure. -/
structure DynamicPricingConfig where
  lead_time_0_7 : ℚ
  lead_time_8_14 : ℚ
  lead_time_15_30 : ℚ
  lead_time_31_plus : ℚ
deriving DecidableEq, Repr

/-- The default multiplier table installed by `Hotel.__post_init__`
(models.py lines 36-41): 1.5 / 1.3 / 1.1 / 1.0. -/
def defaultDynamicPricingConfig : DynamicPricingConfig :=
  ⟨3/2, 13/10, 11/10, 1⟩

/-- `Hotel` from src/utils/models.py (lines 24-41). -/
structure Hotel where
  hotel_id : String
  name : String
  total_rooms : ℤ
  base_price : ℚ
  dynamic_pricing_config : DynamicPricingConfig
deriving DecidableEq, Repr

/-- `TravelAgent` from src/utils/models.py (lines 44-56). -/
structure TravelAgent where
  agent_id : String
  name : String
  operating_cost_per_room : ℚ
  profit_margin : ℚ
  allocation_schedule : List ℤ
deriving DecidableEq, Repr

/-- `SupplyAllocation` from src/utils/models.py (lines 59-68). -/
structure SupplyAllocation where
  supplier_id : String
  supplier_type : SupplierType
  day : ℤ
  hotel_id : String
  rooms_allocated : ℤ
  rooms_remaining : ℤ
  cost_basis : ℚ
deriving DecidableEq, Repr

instance : Inhabited SupplyAllocation :=
  ⟨⟨"", SupplierType.travelAgent, 0, "", 0, 0, 0⟩⟩

/-- `DailySupply` from src/utils/models.py (lines 71-90), minus the
constant `simulation_id` and the `updated_at` timestamp. -/
structure DailySupply where
  hotel_id : String
  day : ℤ
  hotel_rooms_total : ℤ
  hotel_rooms_remaining : ℤ
  hotel_price : ℚ
  travel_agent_allocations : List SupplyAllocation
  bookings_count : ℤ
  total_revenue : ℚ
deriving DecidableEq, Repr

/-- `Booking` from src/utils/models.py (lines 93-109), minus
`simulation_id` and `created_at`. -/
structure Booking where
  user_id : String
  trip_id : ℕ
  supplier_id : String
  supplier_type : SupplierType
  booking_day : ℤ
  stay_dates : List ℤ
  price_per_night : ℚ
  total_price : ℚ
  hotel_id : String
deriving DecidableEq, Repr

/-- `SimulationConfig` from src/utils/models.py (lines 112-153); the
`allocation_rules` nested dicts become association lists. -/
structure SimulationConfig where
  hotels : List Hotel
  travel_agents : List TravelAgent
  allocation_rules : List (String × List (String × ℤ))
  operational_start_day : ℤ
  operational_end_day : ℤ

/-- `SimulationConfig.get_hotel_by_id` (models.py lines 159-164). -/
def getHotelById (cfg : SimulationConfig) (hotel_id : String) : Option Hotel :=
  cfg.hotels.find? (fun h => h.hotel_id == hotel_id)

/-- `SimulationConfig.get_travel_agent_by_id` (models.py lines 166-171). -/
def getTravelAgentById (cfg : SimulationConfig) (agent_id : String) :
    Option TravelAgent :=
  cfg.travel_agents.find? (fun a => a.agent_id == agent_id)

/-- The `daily_supply` collection for one simulation. -/
abbrev SupplyStore := List DailySupply

/-- The (hotel_id, day) key test of the `daily_supply` collection. -/
def keyMatches (hotel_id : String) (day : ℤ) (x : DailySupply) : Bool :=
  x.hotel_id == hotel_id && x.day == day

/-- `SupplyManager.get_daily_supply` (supply_manager.py lines 150-171):
point lookup by (hotel_id, day). -/
def getDailySupply (s : SupplyStore) (hotel_id : String) (day : ℤ) :
    Option DailySupply :=
  s.find? (keyMatches hotel_id day)

/-- `SupplyManager._save_daily_supply` (supply_manager.py lines 367-379):
upsert keyed by (hotel_id, day). -/
def saveDailySupply (s : SupplyStore) (r : DailySupply) : SupplyStore :=
  if s.any (keyMatches r.hotel_id r.day) then
    s.map (fun x => if keyMatches r.hotel_id r.day x then r else x)
  else s ++ [r]

/-- Python `range(lo, hi)` over `ℤ`. -/
def pyRange (lo hi : ℤ) : List ℤ :=
  (List.range (hi - lo).toNat).map (fun k : ℕ => lo + (k : ℤ))

/-- The daily-supply creation loop of `SupplyManager.initialize_simulation`
(supply_manager.py lines 78-91): one full-capacity record per hotel per
operational day. -/
def initDailySupplies (cfg : SimulationConfig) : SupplyStore :=
  (pyRange cfg.operational_start_day (cfg.operational_end_day + 1)).foldl
    (fun s day => cfg.hotels.foldl
      (fun s h => saveDailySupply s
        ⟨h.hotel_id, day, h.total_rooms, h.total_rooms, h.base_price, [], 0, 0⟩)
      s)
    []

/-- Innermost body of `SupplyManager._allocate_travel_agent_inventory`
(supply_manager.py lines 120-145): carve `min(num_rooms, remaining)` rooms
out of one day's hotel pool, at the hotel's current stored price. -/
def allocOneDay (agent : TravelAgent) (hotel_id : String) (num_rooms : ℤ)
    (day : ℤ) (s : SupplyStore) : SupplyStore :=
  match getDailySupply s hotel_id day with
  | none => s
  | some ds =>
    let rooms_to_allocate := min num_rooms ds.hotel_rooms_remaining
    if 0 < rooms_to_allocate then
      saveDailySupply s
        { ds with
          hotel_rooms_remaining := ds.hotel_rooms_remaining - rooms_to_allocate,
          travel_agent_allocations := ds.travel_agent_allocations ++
            [⟨agent.agent_id, SupplierType.travelAgent, day, hotel_id,
              rooms_to_allocate, rooms_to_allocate, ds.hotel_price⟩] }
    else s

/-- One (hotel_id → room_count) rule of
`_allocate_travel_agent_inventory`: allocate for every day from the
allocation day through the end of the operational window
(supply_manager.py lines 114-145). -/
def allocRule (cfg : SimulationConfig) (agent : TravelAgent)
    (allocation_day : ℤ) (s : SupplyStore) (rule : String × ℤ) : SupplyStore :=
  match getHotelById cfg rule.1 with
  | none => s
  | some _ =>
    (pyRange allocation_day (cfg.operational_end_day + 1)).foldl
      (fun s day => allocOneDay agent rule.1 rule.2 day s) s

/-- `SupplyManager._allocate_travel_agent_inventory`
(supply_manager.py lines 98-148). -/
def allocateTravelAgentInventory (cfg : SimulationConfig) (s : SupplyStore) :
    SupplyStore :=
  cfg.travel_agents.foldl
    (fun s agent => agent.allocation_schedule.foldl
      (fun s allocation_day =>
        if allocation_day < cfg.operational_start_day then s
        else ((cfg.allocation_rules.lookup agent.agent_id).getD []).foldl
          (allocRule cfg agent allocation_day) s)
      s)
    s

/-- `SupplyManager.initialize_simulation` (supply_manager.py lines 54-96):
create all daily-supply records, then run the travel-agent allocation. -/
def initSimulation (cfg : SimulationConfig) : SupplyStore :=
  allocateTravelAgentInventory cfg (initDailySupplies cfg)

/-- `PricingEngine.calculate_hotel_price` (pricing_engine.py lines 25-55):
base price times the lead-time bucket multiplier. -/
def calculate_hotel_price (hotel : Hotel) (current_day stay_day : ℤ) : ℚ :=
  let lead_time := stay_day - current_day
  let multiplier :=
    if lead_time ≤ 7 then hotel.dynamic_pricing_config.lead_time_0_7
    else if lead_time ≤ 14 then hotel.dynamic_pricing_config.lead_time_8_14
    else if lead_time ≤ 30 then hotel.dynamic_pricing_config.lead_time_15_30
    else hotel.dynamic_pricing_config.lead_time_31_plus
  hotel.base_price * multiplier

/-- `PricingEngine.calculate_travel_agent_price`
(pricing_engine.py lines 57-78): cost basis plus operating cost, marked up
by the profit margin. -/
def calculate_travel_agent_price (agent : TravelAgent) (hotel_cost : ℚ) : ℚ :=
  (hotel_cost + agent.operating_cost_per_room) * (1 + agent.profit_margin)

/-- An offer dict produced by the pricing engine
(pricing_engine.py lines 154-161 and 204-211); the constant
`available: True` entry is dropped. -/
structure Offer where
  supplier_id : String
  supplier_type : SupplierType
  hotel_id : String
  avg_price : ℚ
  total_price : ℚ
deriving DecidableEq, Repr

/-- The per-day availability-and-price loop of
`PricingEngine._evaluate_hotel_offer` (pricing_engine.py lines 133-146):
`none` when some stay day has no record or no direct rooms left, otherwise
the total of the lead-time prices over the stay. -/
def hotelStayTotal (s : SupplyStore) (hotel : Hotel) (current_day : ℤ) :
    List ℤ → Option ℚ
  | [] => some 0
  | d :: rest =>
    match getDailySupply s hotel.hotel_id d with
    | none => none
    | some ds =>
      if ds.hotel_rooms_remaining ≤ 0 then none
      else (hotelStayTotal s hotel current_day rest).map
        (fun t => calculate_hotel_price hotel current_day d + t)

/-- `PricingEngine._evaluate_hotel_offer` (pricing_engine.py lines 124-161). -/
def evaluateHotelOffer (s : SupplyStore) (hotel : Hotel) (current_day : ℤ)
    (stay_dates : List ℤ) (max_price_per_night : ℚ) : Option Offer :=
  match hotelStayTotal s hotel current_day stay_dates with
  | none => none
  | some total =>
    if max_price_per_night < total / (stay_dates.length : ℚ) then none
    else some ⟨hotel.hotel_id, SupplierType.hotel, hotel.hotel_id,
               total / (stay_dates.length : ℚ), total⟩

/-- The first allocation of a record matching an agent id — the
`for allocation in ...: if allocation.supplier_id == agent_id: break`
pattern used throughout pricing_engine.py and supply_manager.py. -/
def findAgentAllocation (ds : DailySupply) (agent_id : String) :
    Option SupplyAllocation :=
  ds.travel_agent_allocations.find? (fun al => al.supplier_id == agent_id)

/-- The per-day loop of `PricingEngine._evaluate_travel_agent_offer`
(pricing_engine.py lines 173-196): `none` when some stay day has no
record, no allocation for this agent, or the agent's first-listed
allocation is exhausted; otherwise the total of the cost-plus-margin
prices over the stay. -/
def agentStayTotal (s : SupplyStore) (agent : TravelAgent) (hotel : Hotel) :
    List ℤ → Option ℚ
  | [] => some 0
  | d :: rest =>
    match getDailySupply s hotel.hotel_id d with
    | none => none
    | some ds =>
      match findAgentAllocation ds agent.agent_id with
      | none => none
      | some al =>
        if al.rooms_remaining ≤ 0 then none
        else (agentStayTotal s agent hotel rest).map
          (fun t => calculate_travel_agent_price agent al.cost_basis + t)

/-- `PricingEngine._evaluate_travel_agent_offer`
(pricing_engine.py lines 163-211). -/
def evaluateTravelAgentOffer (s : SupplyStore) (agent : TravelAgent)
    (hotel : Hotel) (stay_dates : List ℤ) (max_price_per_night : ℚ) :
    Option Offer :=
  match agentStayTotal s agent hotel stay_dates with
  | none => none
  | some total =>
    if max_price_per_night < total / (stay_dates.length : ℚ) then none
    else some ⟨agent.agent_id, SupplierType.travelAgent, hotel.hotel_id,
               total / (stay_dates.length : ℚ), total⟩

/-- The enumeration order of `PricingEngine.get_best_offer`
(pricing_engine.py lines 99-120): for each hotel in configured order, the
direct offer first, then one offer per travel agent in configured order. -/
def offerCandidates (cfg : SimulationConfig) (s : SupplyStore)
    (current_day : ℤ) (stay_dates : List ℤ) (max_price_per_night : ℚ) :
    List (Option Offer) :=
  cfg.hotels.flatMap (fun h =>
    evaluateHotelOffer s h current_day stay_dates max_price_per_night ::
      cfg.travel_agents.map
        (fun a => evaluateTravelAgentOffer s a h stay_dates max_price_per_night))

/-- One step of the best-offer accumulator of `get_best_offer`
(pricing_engine.py lines 107-120): a candidate replaces the current best
only when its average price is strictly smaller. -/
def considerOffer (best : Option Offer) (cand : Option Offer) : Option Offer :=
  match cand with
  | none => best
  | some o =>
    match best with
    | none => some o
    | some b => if o.avg_price < b.avg_price then some o else some b

/-- `PricingEngine.get_best_offer` (pricing_engine.py lines 80-122). -/
def get_best_offer (cfg : SimulationConfig) (s : SupplyStore)
    (current_day : ℤ) (stay_dates : List ℤ) (max_price_per_night : ℚ) :
    Option Offer :=
  (offerCandidates cfg s current_day stay_dates max_price_per_night).foldl
    considerOffer none

/-- The per-day availability check of `SupplyManager.book_room`
(supply_manager.py lines 241-260): a hotel needs direct rooms left, a
travel agent needs SOME matching allocation with rooms left. -/
def bookCheckDay (s : SupplyStore) (supplier_id : String)
    (supplier_type : SupplierType) (hotel_id : String) (day : ℤ) : Bool :=
  match getDailySupply s hotel_id day with
  | none => false
  | some ds =>
    match supplier_type with
    | SupplierType.hotel => decide (0 < ds.hotel_rooms_remaining)
    | SupplierType.travelAgent =>
      ds.travel_agent_allocations.any
        (fun al => al.supplier_id == supplier_id && decide (0 < al.rooms_remaining))

/-- The per-day price of the pricing loop of `SupplyManager.book_room`
(supply_manager.py lines 266-279).  The `none` fallbacks return 0; they
are unreachable when the availability check has passed (in Python a
failed lookup there would raise instead). -/
def bookPriceDay (cfg : SimulationConfig) (s : SupplyStore)
    (supplier_id : String) (supplier_type : SupplierType) (hotel_id : String)
    (day : ℤ) : ℚ :=
  match getDailySupply s hotel_id day with
  | none => 0
  | some ds =>
    match supplier_type with
    | SupplierType.hotel => ds.hotel_price
    | SupplierType.travelAgent =>
      match getTravelAgentById cfg supplier_id, findAgentAllocation ds supplier_id with
      | some agent, some al => calculate_travel_agent_price agent al.cost_basis
      | _, _ => 0

/-- The decrement applied by `SupplyManager.book_room` to a travel-agent
record (supply_manager.py lines 290-293): the FIRST allocation whose
supplier matches loses one room (whether or not it has any left). -/
def decrementFirstAllocation : List SupplyAllocation → String → List SupplyAllocation
  | [], _ => []
  | al :: rest, supplier_id =>
    if al.supplier_id == supplier_id then
      { al with rooms_remaining := al.rooms_remaining - 1 } :: rest
    else al :: decrementFirstAllocation rest supplier_id

/-- The record update performed per stay day by the commit loop of
`SupplyManager.book_room` (supply_manager.py lines 287-297). -/
def bookedRecordUpdate (supplier_id : String) (supplier_type : SupplierType)
    (price_per_night : ℚ) (ds : DailySupply) : DailySupply :=
  let ds' :=
    match supplier_type with
    | SupplierType.hotel =>
      { ds with hotel_rooms_remaining := ds.hotel_rooms_remaining - 1 }
    | SupplierType.travelAgent =>
      { ds with travel_agent_allocations :=
          decrementFirstAllocation ds.travel_agent_allocations supplier_id }
  { ds' with bookings_count := ds'.bookings_count + 1,
             total_revenue := ds'.total_revenue + price_per_night }

/-- One iteration of the commit loop of `SupplyManager.book_room`
(supply_manager.py lines 284-299). -/
def bookDecrementDay (supplier_id : String) (supplier_type : SupplierType)
    (hotel_id : String) (price_per_night : ℚ) (s : SupplyStore) (day : ℤ) :
    SupplyStore :=
  match getDailySupply s hotel_id day with
  | none => s
  | some ds =>
    saveDailySupply s (bookedRecordUpdate supplier_id supplier_type price_per_night ds)

/-- `SupplyManager.book_room` (supply_manager.py lines 220-321):
check every stay day, then price, then commit; the failure paths return
before any record is written. -/
def book_room (cfg : SimulationConfig) (supplier_id : String)
    (supplier_type : SupplierType) (hotel_id : String) (booking_day : ℤ)
    (stay_dates : List ℤ) (user_id : String) (trip_id : ℕ) (s : SupplyStore) :
    Option Booking × SupplyStore :=
  if stay_dates.all (fun d => bookCheckDay s supplier_id supplier_type hotel_id d) then
    let total_price :=
      (stay_dates.map (fun d => bookPriceDay cfg s supplier_id supplier_type hotel_id d)).sum
    let price_per_night := total_price / (stay_dates.length : ℚ)
    let s' := stay_dates.foldl
      (fun s day => bookDecrementDay supplier_id supplier_type hotel_id price_per_night s day) s
    (some ⟨user_id, trip_id, supplier_id, supplier_type, booking_day, stay_dates,
           price_per_night, total_price, hotel_id⟩, s')
  else (none, s)

/-- `PricingEngine.update_hotel_prices` (pricing_engine.py lines 213-237):
forward-looking repricing sweep from `current_day` to the end of the
operational window. -/
def update_hotel_prices (cfg : SimulationConfig) (current_day : ℤ)
    (s : SupplyStore) : SupplyStore :=
  cfg.hotels.foldl
    (fun s h => (pyRange current_day (cfg.operational_end_day + 1)).foldl
      (fun s day =>
        match getDailySupply s h.hotel_id day with
        | none => s
        | some ds =>
          saveDailySupply s { ds with hotel_price := calculate_hotel_price h current_day day })
      s)
    s

/-- `Demand` from src/simulator.py (lines 24-30). -/
structure Demand where
  shopping_date : ℤ
  stay_start_date : ℤ
  stay_end_date : ℤ
  max_price_per_night : ℚ
deriving DecidableEq, Repr

/-- `Itinerary` from src/simulator.py (lines 32-42). -/
structure Itinerary where
  user_id : String
  trip_id : ℕ
  demands : List Demand
  is_booked : Bool
  booked_price_per_night : Option ℚ
  booked_supplier_id : Option String
  booked_supplier_type : Option SupplierType
  booked_hotel_id : Option String
deriving DecidableEq, Repr

instance : Inhabited Itinerary :=
  ⟨⟨"", 0, [], false, none, none, none, none⟩⟩

/-- The body of the per-itinerary loop of
`HotelDemandSimulator.process_daily_shopping` (simulator.py lines
307-395): skip a booked itinerary, otherwise take the first demand whose
shopping date is today, fetch the best offer, and commit it through
`book_room`, marking the itinerary booked on success.  The emitted
`Booking` is the record returned by `book_room`. -/
def processItinerary (cfg : SimulationConfig) (simulation_day : ℤ)
    (user_id : String) (itin : Itinerary) (s : SupplyStore) :
    Itinerary × SupplyStore × Option Booking :=
  if itin.is_booked then (itin, s, none)
  else
    match itin.demands.filter (fun d => d.shopping_date == simulation_day) with
    | [] => (itin, s, none)
    | demand :: _ =>
      let stay_dates := pyRange demand.stay_start_date (demand.stay_end_date + 1)
      match get_best_offer cfg s simulation_day stay_dates demand.max_price_per_night with
      | none => (itin, s, none)
      | some off =>
        match book_room cfg off.supplier_id off.supplier_type off.hotel_id
            simulation_day stay_dates user_id itin.trip_id s with
        | (none, s') => (itin, s', none)
        | (some b, s') =>
          ({ itin with
              is_booked := true,
              booked_price_per_night := some b.price_per_night,
              booked_supplier_id := some b.supplier_id,
              booked_supplier_type := some b.supplier_type,
              booked_hotel_id := some b.hotel_id }, s', some b)

/-- The inner `for itinerary in itineraries` loop of
`process_daily_shopping`, threading the supply store. -/
def processItinList (cfg : SimulationConfig) (day : ℤ) (user_id : String) :
    List Itinerary → SupplyStore → List Itinerary × SupplyStore × List Booking
  | [], s => ([], s, [])
  | itin :: rest, s =>
    let r := processItinerary cfg day user_id itin s
    let rr := processItinList cfg day user_id rest r.2.1
    (r.1 :: rr.1, rr.2.1, r.2.2.toList ++ rr.2.2)

/-- The outer `for user_id, itineraries in self.users.items()` loop of
`process_daily_shopping`; the `users` dict in insertion order. -/
def processUsers (cfg : SimulationConfig) (day : ℤ) :
    List (String × List Itinerary) → SupplyStore →
    List (String × List Itinerary) × SupplyStore × List Booking
  | [], s => ([], s, [])
  | (uid, itins) :: rest, s =>
    let r := processItinList cfg day uid itins s
    let rr := processUsers cfg day rest r.2.1
    ((uid, r.1) :: rr.1, rr.2.1, r.2.2 ++ rr.2.2)

/-- The simulator's mutable state: the `users` map plus the supply store. -/
abbrev SimState := List (String × List Itinerary) × SupplyStore

/-- `HotelDemandSimulator.process_daily_shopping` (simulator.py lines
282-401): reprice, then walk all users' unbooked itineraries. -/
def process_daily_shopping (cfg : SimulationConfig) (day : ℤ) (st : SimState) :
    SimState × List Booking :=
  let s0 := update_hotel_prices cfg day st.2
  let r := processUsers cfg day st.1 s0
  ((r.1, r.2.1), r.2.2)

/-- The day loop of `HotelDemandSimulator.run_full_simulation`
(simulator.py lines 403-422), generalized to an arbitrary day list;
returns the final state and all bookings in order. -/
def processDays (cfg : SimulationConfig) :
    List ℤ → SimState → SimState × List Booking
  | [], st => (st, [])
  | d :: rest, st =>
    let r := process_daily_shopping cfg d st
    let rr := processDays cfg rest r.1
    (rr.1, r.2 ++ rr.2)

/-- The itinerary stored at user position `u`, itinerary position `j`. -/
def getItin (st : SimState) (u j : ℕ) : Itinerary :=
  ((st.1.getD u ("", [])).2.getD j default)

/-- The sequence of states visited by a run over a day list
(initial state first). -/
def stateScan (cfg : SimulationConfig) : List ℤ → SimState → List SimState
  | [], st => [st]
  | d :: rest, st => st :: stateScan cfg rest (process_daily_shopping cfg d st).1

/-- Number of `false`-to-`true` transitions in a boolean trajectory. -/
def countRises : List Bool → ℕ
  | [] => 0
  | [_] => 0
  | a :: b :: t => (if !a && b then 1 else 0) + countRises (b :: t)

/-- `random.choice(list(available_days))` (simulator.py lines 258 and
273), embedded as: index the list of the set's elements by the draw
modulo the size.  The availability set is carried as a duplicate-free
list (kept in ascending order); since `random.choice` is uniform over an
arbitrarily-ordered `list(set)`, indexing by an arbitrary draw reaches
exactly the members of the set either way. -/
def chooseFrom (avail : List ℤ) (k : ℕ) : ℤ :=
  avail.getD (k % avail.length) 0

/-- The blockout of `_schedule_trips`: discard every day of
`range(start, stop)` from the availability set (simulator.py lines
262-263 and 277-278). -/
def removeBlock (avail : List ℤ) (start stop : ℤ) : List ℤ :=
  avail.filter (fun d => !(decide (start ≤ d) && decide (d < stop)))

/-- Insertion of an element into an ascending list. -/
def insertAsc (x : ℤ) : List ℤ → List ℤ
  | [] => [x]
  | y :: t => if x ≤ y then x :: y :: t else y :: insertAsc x t

/-- Ascending insertion sort: `sorted(trip_dates)` (simulator.py lines
265 and 280). -/
def sortAsc : List ℤ → List ℤ
  | [] => []
  | x :: t => insertAsc x (sortAsc t)

/-- Insertion of an element into a descending list. -/
def insertDesc (x : ℤ) : List ℤ → List ℤ
  | [] => [x]
  | y :: t => if y ≤ x then x :: y :: t else y :: insertDesc x t

/-- Descending insertion sort: `sorted(trip_lengths, reverse=True)`
(simulator.py line 251). -/
def sortDesc : List ℤ → List ℤ
  | [] => []
  | x :: t => insertDesc x (sortDesc t)

/-- The explicit-lengths branch of `HotelDemandSimulator._schedule_trips`
(simulator.py lines 247-265): for each length (already sorted
descending), stop if availability is exhausted, otherwise pick a random
available day and block out `range(start, min(start+length+1, year))`. -/
def scheduleWithLengths (year : ℤ) (picks : ℕ → ℕ) :
    List ℤ → List ℤ → ℕ → List ℤ
  | [], _, _ => []
  | len :: rest, avail, i =>
    if avail = [] then []
    else
      chooseFrom avail (picks i) :: scheduleWithLengths year picks rest
        (removeBlock avail (chooseFrom avail (picks i))
          (min (chooseFrom avail (picks i) + len + 1) year)) (i + 1)

/-- The no-lengths branch of `_schedule_trips` (simulator.py lines
266-280): same loop with a fixed 25-day blockout
`range(start, min(start+25, year))`. -/
def scheduleNoLengths (year : ℤ) (picks : ℕ → ℕ) :
    ℕ → List ℤ → ℕ → List ℤ
  | 0, _, _ => []
  | n + 1, avail, i =>
    if avail = [] then []
    else
      chooseFrom avail (picks i) :: scheduleNoLengths year picks n
        (removeBlock avail (chooseFrom avail (picks i))
          (min (chooseFrom avail (picks i) + 25) year)) (i + 1)

/-- `HotelDemandSimulator._schedule_trips` (simulator.py lines 242-280):
`available_days = set(range(0, year_length))`, then one of the two
branches, and the result sorted ascending. -/
def schedule_trips (num_trips : ℕ) (year : ℤ)
    (trip_lengths : Option (List ℤ)) (picks : ℕ → ℕ) : List ℤ :=
  match trip_lengths with
  | some ls => sortAsc (scheduleWithLengths year picks (sortDesc ls) (pyRange 0 year) 0)
  | none => sortAsc (scheduleNoLengths year picks num_trips (pyRange 0 year) 0)

/-- The random draws consumed by `_generate_casual_traveller`, one stream
per call site, indexed by trip id (`pick` by loop iteration). -/
structure CasualDraws where
  pick : ℕ → ℕ
  lengthDraw : ℕ → ℤ
  basePriceDraw : ℕ → ℚ
  multDraw : ℕ → ℚ
  shopStartDraw : ℕ → ℤ
  shopEndDraw : ℕ → ℤ

/-- The shopping-window computation of `_generate_casual_traveller`
(simulator.py lines 157-165): window ends, clamped so it starts no
earlier than -20, and forced nonempty when degenerate. -/
def casualShopWindow (start_date a b : ℤ) : ℤ × ℤ :=
  let shop_start := max (start_date - a) (-20)
  let shop_end := start_date - b
  (shop_start, if shop_end ≤ shop_start then shop_start + 1 else shop_end)

/-- The demand loop of `_generate_casual_traveller` (simulator.py lines
167-180): one demand per shopping day, price linearly interpolated from
`min_price` at the window start to `base_max_price` at the window end. -/
def casualDemands (start_date end_date shop_start shop_end : ℤ)
    (min_price base_max_price : ℚ) : List Demand :=
  (pyRange shop_start (shop_end + 1)).map (fun d =>
    let progress : ℚ := ((d - shop_start : ℤ) : ℚ) / ((shop_end - shop_start : ℤ) : ℚ)
    ⟨d, start_date, end_date, min_price + (base_max_price - min_price) * progress⟩)

/-- `HotelDemandSimulator._generate_casual_traveller`
(simulator.py lines 140-189): 2 trips, length `max(1, int(gauss(8,2)))`,
price window from `gauss(110,20)` and `uniform(0.7,0.9)`, shopping window
from `randint(20,50)` and `randint(5,15)` days before the start. -/
def casualItinerary (draws : CasualDraws) (user_id : String) (p : ℕ × ℤ) : Itinerary :=
  let trip_id := p.1
  let start_date := p.2
  let trip_length := max 1 (draws.lengthDraw trip_id)
  let end_date := min 99 (start_date + trip_length - 1)
  let base_max_price := draws.basePriceDraw trip_id
  let min_price := base_max_price * draws.multDraw trip_id
  let w := casualShopWindow start_date (draws.shopStartDraw trip_id) (draws.shopEndDraw trip_id)
  ⟨user_id, trip_id, casualDemands start_date end_date w.1 w.2 min_price base_max_price,
   false, none, none, none, none⟩

def generate_casual_traveller (draws : CasualDraws) (user_id : String) :
    List Itinerary :=
  (schedule_trips 2 100 none draws.pick).enum.map (casualItinerary draws user_id)

/-- The random draws consumed by `_generate_business_traveller`. -/
structure BusinessDraws where
  pick : ℕ → ℕ
  longDraw : ℤ
  shortDraw : ℕ → ℤ
  priceDraw : ℕ → ℚ
  shopStartDraw : ℕ → ℤ

/-- The five trip lengths of `_generate_business_traveller`
(simulator.py lines 195-203): one `max(1, int(gauss(20,5)))` plus four
`max(1, int(gauss(5,1)))`, in draw order. -/
def businessTripLengths (draws : BusinessDraws) : List ℤ :=
  max 1 draws.longDraw :: (List.range 4).map (fun i => max 1 (draws.shortDraw i))

/-- `HotelDemandSimulator._generate_business_traveller`
(simulator.py lines 191-239).  Note the source pairs the ascending-sorted
trip dates with the UNSORTED length list (`trip_lengths[trip_id]`). -/
def businessItinerary (draws : BusinessDraws) (user_id : String) (p : ℕ × ℤ) : Itinerary :=
  let trip_id := p.1
  let start_date := p.2
  let trip_length := (businessTripLengths draws).getD trip_id 0
  let end_date := min 99 (start_date + trip_length - 1)
  let max_price := draws.priceDraw trip_id
  let shop_start := max (start_date - draws.shopStartDraw trip_id) (-20)
  let shop_end := start_date - 1
  let demands := (pyRange shop_start (shop_end + 1)).map
    (fun d => (⟨d, start_date, end_date, max_price⟩ : Demand))
  ⟨user_id, trip_id, demands, false, none, none, none, none⟩

def generate_business_traveller (draws : BusinessDraws) (user_id : String) :
    List Itinerary :=
  (schedule_trips 5 100 (some (businessTripLengths draws)) draws.pick).enum.map
    (businessItinerary draws user_id)

/-- Zero-padded 3-digit formatting, as in `f"casual-{i+1:03d}"`. -/
def pad3 (n : ℕ) : String :=
  if n < 10 then "00" ++ toString n
  else if n < 100 then "0" ++ toString n
  else toString n

/-- Python `int()` applied to a rational: truncation toward zero. -/
def pyInt (q : ℚ) : ℤ :=
  if q < 0 then -(Rat.floor (-q)) else Rat.floor q

/-- The user-generation part of `HotelDemandSimulator.generate_demand`
plus `_generate_travellers` (simulator.py lines 65-138):
`num_casual = int(total_users * proportion_casual)` casual travellers,
then `total_users - num_casual` business travellers, inserted into the
`users` dict in that order. -/
def generate_demand (total_users : ℕ) (proportion_casual : ℚ)
    (cdraws : ℕ → CasualDraws) (bdraws : ℕ → BusinessDraws) :
    List (String × List Itinerary) :=
  let num_casual := (pyInt ((total_users : ℚ) * proportion_casual)).toNat
  let num_business := ((total_users : ℤ) - (num_casual : ℤ)).toNat
  ((List.range num_casual).map (fun i =>
      let uid := "casual-" ++ pad3 (i + 1)
      (uid, generate_casual_traveller (cdraws i) uid)))
    ++ ((List.range num_business).map (fun i =>
      let uid := "business-" ++ pad3 (i + 1)
      (uid, generate_business_traveller (bdraws i) uid)))

/-! ## Basic lemmas -/

theorem mem_pyRange {lo hi x : ℤ} : x ∈ pyRange lo hi ↔ lo ≤ x ∧ x < hi := by
  unfold pyRange
  rw [List.mem_map]
  constructor
  · rintro ⟨k, hk, rfl⟩
    rw [List.mem_range] at hk
    omega
  · intro hx
    refine ⟨(x - lo).toNat, ?_, ?_⟩
    · rw [List.mem_range]
      omega
    · omega

theorem length_pyRange (lo hi : ℤ) : (pyRange lo hi).length = (hi - lo).toNat := by
  unfold pyRange
  rw [List.length_map, List.length_range]

/-! ## C5: lead-time hotel pricing -/

/-- C5: for every hotel carrying the default dynamic-pricing config and
all integer days, `calculate_hotel_price` is the base price times 1.5
when the lead time `stay_day - current_day` is at most 7, times 1.3 when
it is in (7, 14], times 1.1 when it is in (14, 30], and times 1.0
otherwise. -/
theorem C5_lead_time_hotel_pricing (h : Hotel) (current_day stay_day : ℤ)
    (hcfg : h.dynamic_pricing_config = defaultDynamicPricingConfig) :
    (stay_day - current_day ≤ 7 →
       calculate_hotel_price h current_day stay_day = h.base_price * (3/2)) ∧
    (7 < stay_day - current_day → stay_day - current_day ≤ 14 →
       calculate_hotel_price h current_day stay_day = h.base_price * (13/10)) ∧
    (14 < stay_day - current_day → stay_day - current_day ≤ 30 →
       calculate_hotel_price h current_day stay_day = h.base_price * (11/10)) ∧
    (30 < stay_day - current_day →
       calculate_hotel_price h current_day stay_day = h.base_price * 1) := by
  refine ⟨fun h1 => ?_, fun h1 h2 => ?_, fun h1 h2 => ?_, fun h1 => ?_⟩ <;>
    simp only [calculate_hotel_price, hcfg, defaultDynamicPricingConfig] <;>
    (split_ifs <;> first | rfl | omega)

/-- A concrete hotel used to witness C5. -/
def hotelW : Hotel := ⟨"w", "W", 10, 100, defaultDynamicPricingConfig⟩

/-- Witness for C5 at lead time 10: the multiplier is 1.3. -/
theorem C5_lead_time_hotel_pricing_witness :
    calculate_hotel_price hotelW 0 10 = hotelW.base_price * (13/10) :=
  (C5_lead_time_hotel_pricing hotelW 0 10 rfl).2.1 (by decide) (by decide)

/-! ## C6: reseller price is cost-plus-margin on a frozen cost basis -/

/-- The travel agent of the C6 scenario: operating cost 10 per room,
profit margin 15%, allocation scheduled on day 10. -/
def agentA : TravelAgent := ⟨"a", "A", 10, 3/20, [10]⟩

/-- The C6 scenario configuration: one hotel priced 100, `agentA` gets 5
of its rooms from day 10 on. -/
def cfg6 : SimulationConfig :=
  { hotels := [⟨"h", "H", 20, 100, defaultDynamicPricingConfig⟩],
    travel_agents := [agentA],
    allocation_rules := [("a", [("h", 5)])],
    operational_start_day := 0, operational_end_day := 12 }

/-- C6: the reseller price is `(cost_basis + operating_cost) * (1 +
profit_margin)` for every agent and cost basis; in the scenario, the
allocation carved out of the hotel while its stored price is 100 freezes
cost basis 100 and is priced (100+10)*1.15 = 126.5, and a later repricing
sweep (which moves the hotel's stored price to 150) leaves the
allocation's cost basis and price unchanged, because the allocation
stores a value copy of the cost basis. -/
theorem C6_reseller_price_frozen_cost_basis :
    (∀ (agent : TravelAgent) (cost_basis : ℚ),
        calculate_travel_agent_price agent cost_basis =
          (cost_basis + agent.operating_cost_per_room) * (1 + agent.profit_margin)) ∧
    ((getDailySupply (initSimulation cfg6) "h" 10).bind
        (fun ds => findAgentAllocation ds "a") =
      some ⟨"a", SupplierType.travelAgent, 10, "h", 5, 5, 100⟩) ∧
    calculate_travel_agent_price agentA 100 = 253/2 ∧
    ((getDailySupply (update_hotel_prices cfg6 5 (initSimulation cfg6)) "h" 10).map
        (fun ds => ds.hotel_price) = some 150) ∧
    (((getDailySupply (update_hotel_prices cfg6 5 (initSimulation cfg6)) "h" 10).bind
        (fun ds => findAgentAllocation ds "a")).map
        (fun al => calculate_travel_agent_price agentA al.cost_basis) =
      some (253/2)) := by
  have hprice : calculate_travel_agent_price agentA 100 = 253/2 := by
    norm_num [calculate_travel_agent_price, agentA]
  have hal : ((getDailySupply (update_hotel_prices cfg6 5 (initSimulation cfg6)) "h" 10).bind
      (fun ds => findAgentAllocation ds "a")) =
      some ⟨"a", SupplierType.travelAgent, 10, "h", 5, 5, 100⟩ := by rfl
  have hup : ((getDailySupply (update_hotel_prices cfg6 5 (initSimulation cfg6)) "h" 10).map
      (fun ds => ds.hotel_price)) =
      some (calculate_hotel_price ⟨"h", "H", 20, 100, defaultDynamicPricingConfig⟩ 5 10) := by
    rfl
  refine ⟨fun _ _ => rfl, by rfl, hprice, ?_, ?_⟩
  · rw [hup]
    norm_num [calculate_hotel_price, defaultDynamicPricingConfig]
  · rw [hal]
    exact congrArg some hprice

/-! ## C2: book_room is atomic on failure -/

/-- The claim's per-day failure condition: the stay day has no
daily-supply record, or the record has no remaining room for the given
supplier (no direct rooms for a hotel; no matching allocation with rooms
remaining for a travel agent). -/
def dayUnavailable (s : SupplyStore) (supplier_id : String)
    (supplier_type : SupplierType) (hotel_id : String) (day : ℤ) : Bool :=
  match getDailySupply s hotel_id day with
  | none => true
  | some ds =>
    match supplier_type with
    | SupplierType.hotel => decide (ds.hotel_rooms_remaining ≤ 0)
    | SupplierType.travelAgent =>
      ds.travel_agent_allocations.all
        (fun al => !(al.supplier_id == supplier_id) || decide (al.rooms_remaining ≤ 0))

theorem bookCheckDay_eq_false_of_unavailable {s supplier_id supplier_type hotel_id day}
    (h : dayUnavailable s supplier_id supplier_type hotel_id day = true) :
    bookCheckDay s supplier_id supplier_type hotel_id day = false := by
  unfold dayUnavailable at h
  unfold bookCheckDay
  cases hds : getDailySupply s hotel_id day with
  | none => rfl
  | some ds =>
    rw [hds] at h
    cases supplier_type with
    | hotel =>
      simp only [decide_eq_true_eq] at h
      simp only [decide_eq_false_iff_not]
      omega
    | travelAgent =>
      simp only [List.all_eq_true, Bool.or_eq_true, Bool.not_eq_true',
        beq_eq_false_iff_ne, decide_eq_true_eq] at h
      rw [List.any_eq_false]
      intro al hal hcon
      simp only [Bool.and_eq_true, beq_iff_eq, decide_eq_true_eq] at hcon
      rcases h al hal with h' | h'
      · exact h' hcon.1
      · omega

/-- C2: whenever some stay day has no daily-supply record or no remaining
room for the requested supplier, `book_room` returns failure and leaves
the supply store exactly as it was (no partial decrement): the failure
return happens in the check phase, before any record is written. -/
theorem C2_book_room_atomic_on_failure (cfg : SimulationConfig)
    (supplier_id : String) (supplier_type : SupplierType) (hotel_id : String)
    (booking_day : ℤ) (stay_dates : List ℤ) (user_id : String) (trip_id : ℕ)
    (s : SupplyStore)
    (hbad : ∃ d ∈ stay_dates, dayUnavailable s supplier_id supplier_type hotel_id d = true) :
    book_room cfg supplier_id supplier_type hotel_id booking_day stay_dates
      user_id trip_id s = (none, s) := by
  obtain ⟨d, hd, hun⟩ := hbad
  have hall : stay_dates.all
      (fun d => bookCheckDay s supplier_id supplier_type hotel_id d) = false := by
    cases hc : stay_dates.all
        (fun d => bookCheckDay s supplier_id supplier_type hotel_id d) with
    | false => rfl
    | true =>
      rw [List.all_eq_true] at hc
      have := hc d hd
      rw [bookCheckDay_eq_false_of_unavailable hun] at this
      exact absurd this (by simp)
  simp [book_room, hall]

/-- A trivial empty configuration, for witnesses. -/
def cfgEmpty : SimulationConfig := ⟨[], [], [], 0, 0⟩

/-- Witness for C2: booking against an empty supply store (stay day 0 has
no record) fails and returns the store unchanged. -/
theorem C2_book_room_atomic_on_failure_witness :
    book_room cfgEmpty "x" SupplierType.hotel "h" 0 [0] "u" 0 [] = (none, []) :=
  C2_book_room_atomic_on_failure cfgEmpty "x" SupplierType.hotel "h" 0 [0] "u" 0 []
    ⟨0, by decide, rfl⟩

/-! ## C1: the inventory invariant is violated by the code -/

/-- The C1/C4 scenario configuration: one hotel of 20 rooms at price 100;
agent "a" is scheduled to carve 5 rooms out of it on both operational
days 0 and 1, so the day-1 record ends up with TWO allocations for the
same agent. -/
def cfgX : SimulationConfig :=
  { hotels := [⟨"h", "H", 20, 100, defaultDynamicPricingConfig⟩],
    travel_agents := [⟨"a", "A", 10, 3/20, [0, 1]⟩],
    allocation_rules := [("a", [("h", 5)])],
    operational_start_day := 0, operational_end_day := 1 }

/-- One travel-agent booking for stay day 1 against `cfgX`. -/
def bookAgentOnce (s : SupplyStore) : SupplyStore :=
  (book_room cfgX "a" SupplierType.travelAgent "h" 0 [1] "u" 0 s).2

/-- The store after initialization and five agent bookings: the agent's
first day-1 allocation is exhausted (0 of 5 left), the second still holds
5 rooms. -/
def s5 : SupplyStore :=
  bookAgentOnce (bookAgentOnce (bookAgentOnce (bookAgentOnce (bookAgentOnce
    (initSimulation cfgX)))))

/-- C1 (code bug): a sixth agent booking against `s5` SUCCEEDS — the
availability check accepts ANY matching allocation with rooms remaining
(the second one) — but the commit decrements the FIRST matching
allocation, driving its `rooms_remaining` to -1.  This violates the
invariant `0 <= rooms_remaining` on a state reachable from
`initialize_simulation` by ordinary `book_room` calls with
duplicate-free stay dates. -/
theorem C1_booking_drives_allocation_negative :
    (book_room cfgX "a" SupplierType.travelAgent "h" 0 [1] "u" 0 s5).1.isSome = true ∧
    ((getDailySupply (bookAgentOnce s5) "h" 1).map
        (fun ds => ds.travel_agent_allocations.map (fun al => al.rooms_remaining)) =
      some [-1, 5]) :=
  ⟨by decide, by decide⟩

/-! ## C4 counterexample: get_best_offer misses a live reseller allocation -/

/-- One direct hotel booking for stay day 1 against `cfgX`. -/
def bookHotelOnce (s : SupplyStore) : SupplyStore :=
  (book_room cfgX "h" SupplierType.hotel "h" 0 [1] "u" 0 s).2

/-- `s5` with the hotel's own day-1 rooms also sold out (ten direct
bookings): day 1 has no direct rooms, the agent's first allocation is
exhausted, but its second allocation still holds 5 rooms. -/
def sHX : SupplyStore :=
  bookHotelOnce (bookHotelOnce (bookHotelOnce (bookHotelOnce (bookHotelOnce
    (bookHotelOnce (bookHotelOnce (bookHotelOnce (bookHotelOnce (bookHotelOnce s5)))))))))

/-- Modelled from the claim's words (C4 validity: "for the chosen
supplier, every stay day has remaining inventory and the mean price
across the stay is <= the demand's max_price_per_night"): there is a
reseller-per-hotel offer such that every stay day has a matching
allocation with rooms remaining whose cost-plus-margin price is within
the cap.  (The prices of such an offer are constant per day, so the
per-day price bound gives the mean bound.) -/
def existsSpecValidResellerOffer (cfg : SimulationConfig) (s : SupplyStore)
    (stay_dates : List ℤ) (max_price_per_night : ℚ) : Prop :=
  ∃ a ∈ cfg.travel_agents, ∃ h ∈ cfg.hotels,
    stay_dates ≠ [] ∧
    ∀ d ∈ stay_dates, ∃ ds, getDailySupply s h.hotel_id d = some ds ∧
      ∃ al ∈ ds.travel_agent_allocations, al.supplier_id = a.agent_id ∧
        0 < al.rooms_remaining ∧
        calculate_travel_agent_price a al.cost_basis ≤ max_price_per_night

/-- Counterexample to C4's "returns None exactly when no valid offer
exists": in the reachable store `sHX`, a valid reseller offer exists in
the claim's sense (the agent's second day-1 allocation has 5 rooms at
price 126.5 ≤ 1000), yet `get_best_offer` returns `none`, because it
judges the agent's availability on the FIRST matching allocation only
(pricing_engine.py lines 185-191), and that one is exhausted. -/
theorem C4_counterexample_first_allocation_shadowing :
    existsSpecValidResellerOffer cfgX sHX [1] 1000 ∧
    get_best_offer cfgX sHX 0 [1] 1000 = none := by
  constructor
  · refine ⟨⟨"a", "A", 10, 3/20, [0, 1]⟩, List.mem_singleton_self _,
      ⟨"h", "H", 20, 100, defaultDynamicPricingConfig⟩, List.mem_singleton_self _,
      List.cons_ne_nil 1 [], ?_⟩
    intro d hd
    have hd1 : d = 1 := List.mem_singleton.mp hd
    subst hd1
    have halls : (getDailySupply sHX "h" 1).map (fun ds => ds.travel_agent_allocations) =
        some [⟨"a", SupplierType.travelAgent, 1, "h", 5, 0, 100⟩,
              ⟨"a", SupplierType.travelAgent, 1, "h", 5, 5, 100⟩] := by rfl
    rcases hds : getDailySupply sHX "h" 1 with _ | ds
    · rw [hds] at halls
      exact Option.noConfusion halls
    · rw [hds] at halls
      simp only [Option.map_some', Option.some.injEq] at halls
      refine ⟨ds, rfl, ⟨"a", SupplierType.travelAgent, 1, "h", 5, 5, 100⟩, ?_, rfl, ?_, ?_⟩
      · rw [halls]
        simp
      · norm_num
      · norm_num [calculate_travel_agent_price]
  · rfl

/-! ## Supply-store lemmas -/

theorem keyMatches_iff {hid : String} {d : ℤ} {x : DailySupply} :
    keyMatches hid d x = true ↔ x.hotel_id = hid ∧ x.day = d := by
  simp [keyMatches]

theorem keyMatches_self (r : DailySupply) : keyMatches r.hotel_id r.day r = true := by
  simp [keyMatches]

theorem getDailySupply_key {s : SupplyStore} {hid : String} {d : ℤ} {ds : DailySupply}
    (h : getDailySupply s hid d = some ds) : ds.hotel_id = hid ∧ ds.day = d :=
  keyMatches_iff.mp (List.find?_some h)

theorem find?_map_replace_self (r : DailySupply) :
    ∀ s : SupplyStore, s.any (keyMatches r.hotel_id r.day) = true →
      (s.map (fun x => if keyMatches r.hotel_id r.day x then r else x)).find?
          (keyMatches r.hotel_id r.day) = some r := by
  intro s hany
  induction s with
  | nil => simp at hany
  | cons x t ih =>
    by_cases hx : keyMatches r.hotel_id r.day x = true
    · simp only [List.map_cons, if_pos hx]
      exact List.find?_cons_of_pos _ (keyMatches_self r)
    · simp only [List.map_cons, if_neg hx]
      rw [List.find?_cons_of_neg _ hx]
      apply ih
      simp only [List.any_cons, Bool.or_eq_true] at hany
      rcases hany with hany | hany
      · exact absurd hany hx
      · exact hany

theorem find?_map_replace_other (r : DailySupply) {hid : String} {d : ℤ}
    (hne : (keyMatches hid d r) = false) :
    ∀ s : SupplyStore,
      (s.map (fun x => if keyMatches r.hotel_id r.day x then r else x)).find?
          (keyMatches hid d) = s.find? (keyMatches hid d) := by
  intro s
  induction s with
  | nil => rfl
  | cons x t ih =>
    by_cases hx : keyMatches r.hotel_id r.day x = true
    · have hxq : keyMatches hid d x = false := by
        obtain ⟨h1, h2⟩ := keyMatches_iff.mp hx
        unfold keyMatches at hne ⊢
        rw [h1, h2]
        exact hne
      simp only [List.map_cons, if_pos hx]
      rw [List.find?_cons_of_neg _ (by simp [hne]),
          List.find?_cons_of_neg _ (by simp [hxq])]
      exact ih
    · simp only [List.map_cons, if_neg hx]
      by_cases hxq : keyMatches hid d x = true
      · rw [List.find?_cons_of_pos _ hxq, List.find?_cons_of_pos _ hxq]
      · rw [List.find?_cons_of_neg _ hxq, List.find?_cons_of_neg _ hxq]
        exact ih

theorem getDailySupply_save (s : SupplyStore) (r : DailySupply) (hid : String) (d : ℤ) :
    getDailySupply (saveDailySupply s r) hid d =
      if r.hotel_id = hid ∧ r.day = d then some r else getDailySupply s hid d := by
  unfold saveDailySupply getDailySupply
  by_cases hk : r.hotel_id = hid ∧ r.day = d
  · rw [if_pos hk]
    obtain ⟨hk1, hk2⟩ := hk
    subst hk1
    subst hk2
    split
    · rename_i hany
      exact find?_map_replace_self r s hany
    · rename_i hany
      rw [List.find?_append]
      have hnone : s.find? (keyMatches r.hotel_id r.day) = none := by
        rw [List.find?_eq_none]
        intro x hx hb
        exact hany (List.any_eq_true.mpr ⟨x, hx, hb⟩)
      rw [hnone, List.find?_cons_of_pos _ (keyMatches_self r)]
      rfl
  · rw [if_neg hk]
    have hrq : keyMatches hid d r = false := by
      rcases hb : keyMatches hid d r with _ | _
      · rfl
      · exact absurd (keyMatches_iff.mp hb) hk
    split
    · exact find?_map_replace_other r hrq s
    · rw [List.find?_append]
      have hr1 : List.find? (keyMatches hid d) [r] = none := by
        rw [List.find?_eq_none]
        intro x hx hb
        rw [List.mem_singleton] at hx
        subst hx
        rw [hb] at hrq
        exact Bool.noConfusion hrq
      rw [hr1]
      rcases List.find? (keyMatches hid d) s with _ | v
      · rfl
      · rfl

/-! ## C9: frame property of a successful booking -/

theorem decrementFirstAllocation_cons (al : SupplyAllocation)
    (t : List SupplyAllocation) (sid : String) :
    decrementFirstAllocation (al :: t) sid =
      if al.supplier_id == sid then
        { al with rooms_remaining := al.rooms_remaining - 1 } :: t
      else al :: decrementFirstAllocation t sid := rfl

theorem bookedRecordUpdate_hotel_id (sid : String) (st : SupplierType) (ppn : ℚ)
    (ds : DailySupply) : (bookedRecordUpdate sid st ppn ds).hotel_id = ds.hotel_id := by
  cases st <;> rfl

theorem bookedRecordUpdate_day (sid : String) (st : SupplierType) (ppn : ℚ)
    (ds : DailySupply) : (bookedRecordUpdate sid st ppn ds).day = ds.day := by
  cases st <;> rfl

theorem bookDecrementDay_get_ne {sid : String} {st : SupplierType} {hid : String}
    {ppn : ℚ} {s : SupplyStore} {day : ℤ} {hid' : String} {d' : ℤ}
    (h : ¬(hid = hid' ∧ day = d')) :
    getDailySupply (bookDecrementDay sid st hid ppn s day) hid' d' =
      getDailySupply s hid' d' := by
  unfold bookDecrementDay
  rcases hds : getDailySupply s hid day with _ | ds
  · rfl
  · obtain ⟨hh, hd⟩ := getDailySupply_key hds
    rw [getDailySupply_save, if_neg]
    rw [bookedRecordUpdate_hotel_id, bookedRecordUpdate_day, hh, hd]
    exact h

theorem bookDecrementDay_get_eq {sid : String} {st : SupplierType} {hid : String}
    {ppn : ℚ} {s : SupplyStore} {day : ℤ} {ds : DailySupply}
    (hds : getDailySupply s hid day = some ds) :
    getDailySupply (bookDecrementDay sid st hid ppn s day) hid day =
      some (bookedRecordUpdate sid st ppn ds) := by
  unfold bookDecrementDay
  rw [hds]
  obtain ⟨hh, hd⟩ := getDailySupply_key hds
  rw [getDailySupply_save, if_pos]
  rw [bookedRecordUpdate_hotel_id, bookedRecordUpdate_day, hh, hd]
  exact ⟨rfl, rfl⟩

theorem foldl_bookDec_frame (sid : String) (st : SupplierType) (hid : String)
    (ppn : ℚ) {hid' : String} {d' : ℤ} :
    ∀ (days : List ℤ) (s : SupplyStore), (hid' ≠ hid ∨ d' ∉ days) →
      getDailySupply (days.foldl (fun s day => bookDecrementDay sid st hid ppn s day) s) hid' d' =
        getDailySupply s hid' d' := by
  intro days
  induction days with
  | nil => intro s _; rfl
  | cons x t ih =>
    intro s hout
    rw [List.foldl_cons]
    have hstep : getDailySupply (bookDecrementDay sid st hid ppn s x) hid' d' =
        getDailySupply s hid' d' := by
      apply bookDecrementDay_get_ne
      rintro ⟨rfl, rfl⟩
      rcases hout with h | h
      · exact h rfl
      · exact h (List.mem_cons_self x t)
    rw [← hstep]
    apply ih
    rcases hout with h | h
    · exact Or.inl h
    · exact Or.inr (fun hmem => h (List.mem_cons_of_mem x hmem))

theorem foldl_bookDec_on (sid : String) (st : SupplierType) (hid : String)
    (ppn : ℚ) {d : ℤ} :
    ∀ (days : List ℤ) (s : SupplyStore), days.Nodup → d ∈ days →
      ∀ ds, getDailySupply s hid d = some ds →
        getDailySupply (days.foldl (fun s day => bookDecrementDay sid st hid ppn s day) s) hid d =
          some (bookedRecordUpdate sid st ppn ds) := by
  intro days
  induction days with
  | nil => intro s _ hd; exact absurd hd (List.not_mem_nil d)
  | cons x t ih =>
    intro s hnd hd ds hds
    rw [List.nodup_cons] at hnd
    rw [List.foldl_cons]
    rcases List.mem_cons.mp hd with rfl | hdt
    · rw [foldl_bookDec_frame sid st hid ppn t _ (Or.inr hnd.1)]
      exact bookDecrementDay_get_eq hds
    · have hne : ¬(hid = hid ∧ x = d) := by
        rintro ⟨-, rfl⟩
        exact hnd.1 hdt
      have hstep : getDailySupply (bookDecrementDay sid st hid ppn s x) hid d =
          getDailySupply s hid d := bookDecrementDay_get_ne hne
      exact ih _ hnd.2 hdt ds (hstep.trans hds)

theorem book_room_success {cfg : SimulationConfig} {sid : String}
    {st : SupplierType} {hid : String} {bday : ℤ} {stay : List ℤ}
    {uid : String} {trip : ℕ} {s : SupplyStore} {b : Booking} {s' : SupplyStore}
    (h : book_room cfg sid st hid bday stay uid trip s = (some b, s')) :
    b.price_per_night =
      (stay.map (fun d => bookPriceDay cfg s sid st hid d)).sum / (stay.length : ℚ) ∧
    s' = stay.foldl (fun s day => bookDecrementDay sid st hid b.price_per_night s day) s := by
  unfold book_room at h
  split at h
  · obtain ⟨h1, h2⟩ := Prod.mk.injEq .. ▸ h
    obtain rfl := (Option.some.injEq .. ▸ h1).symm
    exact ⟨rfl, h2.symm⟩
  · exact absurd (Prod.mk.injEq .. ▸ h).1 (by simp)

/-- C9: a successful `book_room` call touches only the records keyed by
the booked hotel and the stay days; each such record is changed exactly
by `bookedRecordUpdate`, which for a HOTEL supplier decrements only
`hotel_rooms_remaining` (by 1 per stay day) leaving the allocation list
untouched, and for a TRAVEL_AGENT supplier rewrites only the allocation
list through `decrementFirstAllocation` (total matched rooms_remaining
down by exactly 1, all other fields and all non-matching allocations
untouched) leaving `hotel_rooms_remaining` untouched; besides the
remaining counts only `bookings_count` and `total_revenue` change. -/
theorem C9_booking_frame (cfg : SimulationConfig) (sid : String)
    (st : SupplierType) (hid : String) (bday : ℤ) (stay : List ℤ)
    (uid : String) (trip : ℕ) (s : SupplyStore) (b : Booking) (s' : SupplyStore)
    (hnd : stay.Nodup)
    (hbk : book_room cfg sid st hid bday stay uid trip s = (some b, s')) :
    (∀ (hid' : String) (d' : ℤ), hid' ≠ hid ∨ d' ∉ stay →
       getDailySupply s' hid' d' = getDailySupply s hid' d') ∧
    (∀ d ∈ stay, ∀ ds, getDailySupply s hid d = some ds →
       getDailySupply s' hid d = some (bookedRecordUpdate sid st b.price_per_night ds)) ∧
    (∀ (ds : DailySupply) (ppn : ℚ),
       bookedRecordUpdate sid SupplierType.hotel ppn ds =
         { ds with hotel_rooms_remaining := ds.hotel_rooms_remaining - 1,
                   bookings_count := ds.bookings_count + 1,
                   total_revenue := ds.total_revenue + ppn }) ∧
    (∀ (ds : DailySupply) (ppn : ℚ),
       bookedRecordUpdate sid SupplierType.travelAgent ppn ds =
         { ds with travel_agent_allocations :=
                     decrementFirstAllocation ds.travel_agent_allocations sid,
                   bookings_count := ds.bookings_count + 1,
                   total_revenue := ds.total_revenue + ppn }) ∧
    (∀ als : List SupplyAllocation,
       ((decrementFirstAllocation als sid).map (fun al => al.rooms_remaining)).sum =
         (als.map (fun al => al.rooms_remaining)).sum -
           (if als.any (fun al => al.supplier_id == sid) then 1 else 0)) ∧
    (∀ (als : List SupplyAllocation) (al' : SupplyAllocation),
       al' ∈ decrementFirstAllocation als sid → al'.supplier_id ≠ sid → al' ∈ als) ∧
    (∀ als : List SupplyAllocation,
       (decrementFirstAllocation als sid).map
           (fun al => (al.supplier_id, al.supplier_type, al.day, al.hotel_id,
                       al.rooms_allocated, al.cost_basis)) =
         als.map (fun al => (al.supplier_id, al.supplier_type, al.day, al.hotel_id,
                             al.rooms_allocated, al.cost_basis))) := by
  obtain ⟨-, hs'⟩ := book_room_success hbk
  subst hs'
  refine ⟨?_, ?_, fun ds ppn => rfl, fun ds ppn => rfl, ?_, ?_, ?_⟩
  · intro hid' d' hout
    exact foldl_bookDec_frame sid st hid b.price_per_night stay s hout
  · intro d hd ds hds
    exact foldl_bookDec_on sid st hid b.price_per_night stay s hnd hd ds hds
  · intro als
    induction als with
    | nil => rfl
    | cons al t ih =>
      rw [decrementFirstAllocation_cons]
      by_cases hal : (al.supplier_id == sid) = true
      · rw [if_pos hal]
        have hany : ((al :: t).any fun al => al.supplier_id == sid) = true := by
          simp [List.any_cons, hal]
        rw [hany, if_pos rfl]
        simp only [List.map_cons, List.sum_cons]
        omega
      · rw [if_neg hal]
        have hany : ((al :: t).any fun al => al.supplier_id == sid) =
            (t.any fun al => al.supplier_id == sid) := by
          simp [List.any_cons, hal]
        rw [hany]
        simp only [List.map_cons, List.sum_cons, ih]
        split <;> omega
  · intro als al' hmem hne
    induction als with
    | nil => exact absurd hmem (List.not_mem_nil al')
    | cons al t ih =>
      rw [decrementFirstAllocation_cons] at hmem
      by_cases hal : (al.supplier_id == sid) = true
      · rw [if_pos hal] at hmem
        rcases List.mem_cons.mp hmem with rfl | hmem'
        · exact absurd (beq_iff_eq.mp hal) (by simpa using hne)
        · exact List.mem_cons_of_mem al hmem'
      · rw [if_neg hal] at hmem
        rcases List.mem_cons.mp hmem with rfl | hmem'
        · exact List.mem_cons_self _ _
        · exact List.mem_cons_of_mem _ (ih hmem')
  · intro als
    induction als with
    | nil => rfl
    | cons al t ih =>
      rw [decrementFirstAllocation_cons]
      by_cases hal : (al.supplier_id == sid) = true
      · rw [if_pos hal]
        rfl
      · rw [if_neg hal]
        simp only [List.map_cons, ih]

/-- The one-record store used to witness C9. -/
def sW9 : SupplyStore := [⟨"h", 0, 5, 5, 100, [], 0, 0⟩]

instance : Inhabited Booking :=
  ⟨⟨"", 0, "", SupplierType.hotel, 0, [], 0, 0, ""⟩⟩

/-- Witness for C9: a successful one-night hotel booking against `sW9`
leaves the record of day 1 (outside the stay) unchanged. -/
theorem C9_booking_frame_witness :
    getDailySupply (book_room cfgEmpty "h" SupplierType.hotel "h" 0 [0] "u" 0 sW9).2 "h" 1 =
      getDailySupply sW9 "h" 1 :=
  (C9_booking_frame cfgEmpty "h" SupplierType.hotel "h" 0 [0] "u" 0 sW9
      (((book_room cfgEmpty "h" SupplierType.hotel "h" 0 [0] "u" 0 sW9).1).getD default)
      ((book_room cfgEmpty "h" SupplierType.hotel "h" 0 [0] "u" 0 sW9).2)
      (by decide) (by rfl)).1 "h" 1 (Or.inr (by decide))

/-! ## C4: best-offer selection -/

theorem considerOffer_none_iff {acc c : Option Offer} :
    considerOffer acc c = none ↔ acc = none ∧ c = none := by
  cases c with
  | none => cases acc <;> simp [considerOffer]
  | some o =>
    cases acc with
    | none => simp [considerOffer]
    | some b =>
      simp only [considerOffer]
      split <;> simp

theorem foldl_considerOffer_none :
    ∀ (cands : List (Option Offer)) (acc : Option Offer),
      cands.foldl considerOffer acc = none ↔ acc = none ∧ ∀ c ∈ cands, c = none := by
  intro cands
  induction cands with
  | nil => intro acc; simp
  | cons c rest ih =>
    intro acc
    rw [List.foldl_cons, ih, considerOffer_none_iff]
    constructor
    · rintro ⟨⟨h1, h2⟩, h3⟩
      refine ⟨h1, ?_⟩
      intro x hx
      rcases List.mem_cons.mp hx with rfl | hx
      · exact h2
      · exact h3 x hx
    · rintro ⟨h1, h2⟩
      exact ⟨⟨h1, h2 c (List.mem_cons_self c rest)⟩,
        fun x hx => h2 x (List.mem_cons_of_mem _ hx)⟩

theorem foldl_considerOffer_some :
    ∀ (cands : List (Option Offer)) (acc : Option Offer) (o : Offer),
      cands.foldl considerOffer acc = some o →
        (acc = some o ∧ ∀ o', some o' ∈ cands → o.avg_price ≤ o'.avg_price) ∨
        (∃ pre post, cands = pre ++ some o :: post ∧
          (∀ b, acc = some b → o.avg_price < b.avg_price) ∧
          (∀ o', some o' ∈ pre → o.avg_price < o'.avg_price) ∧
          (∀ o', some o' ∈ post → o.avg_price ≤ o'.avg_price)) := by
  intro cands
  induction cands with
  | nil =>
    intro acc o h
    rw [List.foldl_nil] at h
    exact Or.inl ⟨h, fun o' ho' => absurd ho' (List.not_mem_nil _)⟩
  | cons c rest ih =>
    intro acc o h
    rw [List.foldl_cons] at h
    rcases ih (considerOffer acc c) o h with ⟨hacc', hmin⟩ | ⟨pre, post, hsplit, haccb, hpre, hpost⟩
    · cases c with
      | none =>
        left
        refine ⟨hacc', ?_⟩
        intro o' ho'
        rcases List.mem_cons.mp ho' with heq | hmem
        · exact absurd heq (by simp)
        · exact hmin o' hmem
      | some oc =>
        cases acc with
        | none =>
          have hoc : oc = o := by simpa [considerOffer] using hacc'
          subst hoc
          right
          refine ⟨[], rest, by simp, ?_, ?_, hmin⟩
          · intro b hb
            exact absurd hb (by simp)
          · intro o' ho'
            exact absurd ho' (List.not_mem_nil _)
        | some b =>
          by_cases hlt : oc.avg_price < b.avg_price
          · have hco : considerOffer (some b) (some oc) = some oc := by
              simp [considerOffer, hlt]
            rw [hco] at hacc'
            have hoc : oc = o := by simpa using hacc'
            subst hoc
            right
            refine ⟨[], rest, by simp, ?_, ?_, hmin⟩
            · intro b' hb'
              obtain rfl : b = b' := by simpa using hb'
              exact hlt
            · intro o' ho'
              exact absurd ho' (List.not_mem_nil _)
          · have hco : considerOffer (some b) (some oc) = some b := by
              simp [considerOffer, hlt]
            rw [hco] at hacc'
            have hb : b = o := by simpa using hacc'
            subst hb
            left
            refine ⟨rfl, ?_⟩
            intro o' ho'
            rcases List.mem_cons.mp ho' with heq | hmem
            · obtain rfl : o' = oc := by simpa using heq
              exact not_lt.mp hlt
            · exact hmin o' hmem
    · right
      refine ⟨c :: pre, post, by rw [List.cons_append, hsplit], ?_, ?_, hpost⟩
      · intro b hb
        subst hb
        cases c with
        | none => exact haccb b rfl
        | some oc =>
          by_cases hlt : oc.avg_price < b.avg_price
          · have hco : considerOffer (some b) (some oc) = some oc := by
              simp [considerOffer, hlt]
            exact lt_trans (haccb oc hco) hlt
          · have hco : considerOffer (some b) (some oc) = some b := by
              simp [considerOffer, hlt]
            exact haccb b hco
      · intro o' ho'
        rcases List.mem_cons.mp ho' with heq | hmem
        · subst heq
          cases acc with
          | none => exact haccb o' rfl
          | some b =>
            by_cases hlt : o'.avg_price < b.avg_price
            · have hco : considerOffer (some b) (some o') = some o' := by
                simp [considerOffer, hlt]
              exact haccb o' hco
            · have hco : considerOffer (some b) (some o') = some b := by
                simp [considerOffer, hlt]
              exact lt_of_lt_of_le (haccb b hco) (not_lt.mp hlt)
        · exact hpre o' hmem

theorem hotelStayTotal_eq_some_iff (s : SupplyStore) (h : Hotel) (cd : ℤ) :
    ∀ (stay : List ℤ) (t : ℚ),
      hotelStayTotal s h cd stay = some t ↔
        ((∀ d ∈ stay, ∃ ds, getDailySupply s h.hotel_id d = some ds ∧
             0 < ds.hotel_rooms_remaining) ∧
         t = (stay.map (fun d => calculate_hotel_price h cd d)).sum) := by
  intro stay
  induction stay with
  | nil =>
    intro t
    simp only [hotelStayTotal, Option.some.injEq, List.not_mem_nil, List.map_nil, List.sum_nil]
    constructor
    · intro ht
      exact ⟨fun d hd => absurd hd (by simp), ht.symm⟩
    · intro ⟨_, ht⟩
      exact ht.symm
  | cons d rest ih =>
    intro t
    rw [hotelStayTotal]
    split
    · rename_i hds
      constructor
      · intro hcon
        exact absurd hcon (by simp)
      · rintro ⟨hall, -⟩
        obtain ⟨ds, hds', -⟩ := hall d (List.mem_cons_self d rest)
        rw [hds] at hds'
        exact absurd hds' (by simp)
    · rename_i ds hds
      by_cases hrem : ds.hotel_rooms_remaining ≤ 0
      · rw [if_pos hrem]
        constructor
        · intro hcon
          exact absurd hcon (by simp)
        · rintro ⟨hall, -⟩
          obtain ⟨ds', hds', hrem'⟩ := hall d (List.mem_cons_self d rest)
          rw [hds] at hds'
          obtain rfl : ds = ds' := by simpa using hds'
          omega
      · rw [if_neg hrem, Option.map_eq_some']
        constructor
        · rintro ⟨t', ht', rfl⟩
          obtain ⟨hall, rfl⟩ := (ih t').mp ht'
          refine ⟨?_, by rw [List.map_cons, List.sum_cons]⟩
          intro d' hd'
          rcases List.mem_cons.mp hd' with rfl | hd'
          · exact ⟨ds, hds, by omega⟩
          · exact hall d' hd'
        · rintro ⟨hall, rfl⟩
          refine ⟨(rest.map (fun d => calculate_hotel_price h cd d)).sum, ?_, ?_⟩
          · exact (ih _).mpr ⟨fun d' hd' => hall d' (List.mem_cons_of_mem d hd'), rfl⟩
          · rw [List.map_cons, List.sum_cons]

theorem evaluateHotelOffer_eq_some_iff (s : SupplyStore) (h : Hotel) (cd : ℤ)
    (stay : List ℤ) (maxP : ℚ) (o : Offer) :
    evaluateHotelOffer s h cd stay maxP = some o ↔
      ((∀ d ∈ stay, ∃ ds, getDailySupply s h.hotel_id d = some ds ∧
           0 < ds.hotel_rooms_remaining) ∧
       (stay.map (fun d => calculate_hotel_price h cd d)).sum / (stay.length : ℚ) ≤ maxP ∧
       o = ⟨h.hotel_id, SupplierType.hotel, h.hotel_id,
            (stay.map (fun d => calculate_hotel_price h cd d)).sum / (stay.length : ℚ),
            (stay.map (fun d => calculate_hotel_price h cd d)).sum⟩) := by
  unfold evaluateHotelOffer
  split
  · rename_i htot
    constructor
    · intro hcon
      exact absurd hcon (by simp)
    · rintro ⟨hall, -, -⟩
      have := (hotelStayTotal_eq_some_iff s h cd stay _).mpr ⟨hall, rfl⟩
      rw [htot] at this
      exact absurd this (by simp)
  · rename_i tot htot
    obtain ⟨hall, rfl⟩ := (hotelStayTotal_eq_some_iff s h cd stay tot).mp htot
    by_cases hgt : maxP <
        (stay.map (fun d => calculate_hotel_price h cd d)).sum / (stay.length : ℚ)
    · rw [if_pos hgt]
      constructor
      · intro hcon
        exact absurd hcon (by simp)
      · rintro ⟨-, hle, -⟩
        exact absurd hle (not_le.mpr hgt)
    · rw [if_neg hgt]
      simp only [Option.some.injEq]
      constructor
      · rintro hsome
        exact ⟨hall, not_lt.mp hgt, hsome.symm⟩
      · rintro ⟨-, -, rfl⟩
        rfl

/-- The per-day price a travel-agent offer uses: the cost-plus-margin
price built on the day's FIRST matching allocation (0 when no record or
no allocation; those defaults are never reached on an available day). -/
def agentDayPrice (s : SupplyStore) (a : TravelAgent) (hid : String) (d : ℤ) : ℚ :=
  match getDailySupply s hid d with
  | none => 0
  | some ds =>
    match findAgentAllocation ds a.agent_id with
    | none => 0
    | some al => calculate_travel_agent_price a al.cost_basis

theorem agentStayTotal_eq_some_iff (s : SupplyStore) (a : TravelAgent) (h : Hotel) :
    ∀ (stay : List ℤ) (t : ℚ),
      agentStayTotal s a h stay = some t ↔
        ((∀ d ∈ stay, ∃ ds al, getDailySupply s h.hotel_id d = some ds ∧
             findAgentAllocation ds a.agent_id = some al ∧ 0 < al.rooms_remaining) ∧
         t = (stay.map (fun d => agentDayPrice s a h.hotel_id d)).sum) := by
  intro stay
  induction stay with
  | nil =>
    intro t
    simp only [agentStayTotal, Option.some.injEq, List.not_mem_nil, List.map_nil, List.sum_nil]
    constructor
    · intro ht
      exact ⟨fun d hd => absurd hd (by simp), ht.symm⟩
    · intro ⟨_, ht⟩
      exact ht.symm
  | cons d rest ih =>
    intro t
    rw [agentStayTotal]
    split
    · rename_i hds
      constructor
      · intro hcon
        exact absurd hcon (by simp)
      · rintro ⟨hall, -⟩
        obtain ⟨ds, al, hds', -, -⟩ := hall d (List.mem_cons_self d rest)
        rw [hds] at hds'
        exact absurd hds' (by simp)
    · rename_i ds hds
      split
      · rename_i hal
        constructor
        · intro hcon
          exact absurd hcon (by simp)
        · rintro ⟨hall, -⟩
          obtain ⟨ds', al, hds', hal', -⟩ := hall d (List.mem_cons_self d rest)
          rw [hds] at hds'
          obtain rfl : ds = ds' := by simpa using hds'
          rw [hal] at hal'
          exact absurd hal' (by simp)
      · rename_i al hal
        by_cases hrem : al.rooms_remaining ≤ 0
        · rw [if_pos hrem]
          constructor
          · intro hcon
            exact absurd hcon (by simp)
          · rintro ⟨hall, -⟩
            obtain ⟨ds', al', hds', hal', hrem'⟩ := hall d (List.mem_cons_self d rest)
            rw [hds] at hds'
            obtain rfl : ds = ds' := by simpa using hds'
            rw [hal] at hal'
            obtain rfl : al = al' := by simpa using hal'
            omega
        · rw [if_neg hrem, Option.map_eq_some']
          have hday : agentDayPrice s a h.hotel_id d =
              calculate_travel_agent_price a al.cost_basis := by
            simp only [agentDayPrice, hds, hal]
          constructor
          · rintro ⟨t', ht', rfl⟩
            obtain ⟨hall, rfl⟩ := (ih t').mp ht'
            refine ⟨?_, by rw [List.map_cons, List.sum_cons, hday]⟩
            intro d' hd'
            rcases List.mem_cons.mp hd' with rfl | hd'
            · exact ⟨ds, al, hds, hal, by omega⟩
            · exact hall d' hd'
          · rintro ⟨hall, rfl⟩
            refine ⟨(rest.map (fun d => agentDayPrice s a h.hotel_id d)).sum, ?_, ?_⟩
            · exact (ih _).mpr ⟨fun d' hd' => hall d' (List.mem_cons_of_mem d hd'), rfl⟩
            · rw [List.map_cons, List.sum_cons, hday]

theorem evaluateTravelAgentOffer_eq_some_iff (s : SupplyStore) (a : TravelAgent)
    (h : Hotel) (stay : List ℤ) (maxP : ℚ) (o : Offer) :
    evaluateTravelAgentOffer s a h stay maxP = some o ↔
      ((∀ d ∈ stay, ∃ ds al, getDailySupply s h.hotel_id d = some ds ∧
           findAgentAllocation ds a.agent_id = some al ∧ 0 < al.rooms_remaining) ∧
       (stay.map (fun d => agentDayPrice s a h.hotel_id d)).sum / (stay.length : ℚ) ≤ maxP ∧
       o = ⟨a.agent_id, SupplierType.travelAgent, h.hotel_id,
            (stay.map (fun d => agentDayPrice s a h.hotel_id d)).sum / (stay.length : ℚ),
            (stay.map (fun d => agentDayPrice s a h.hotel_id d)).sum⟩) := by
  unfold evaluateTravelAgentOffer
  split
  · rename_i htot
    constructor
    · intro hcon
      exact absurd hcon (by simp)
    · rintro ⟨hall, -, -⟩
      have := (agentStayTotal_eq_some_iff s a h stay _).mpr ⟨hall, rfl⟩
      rw [htot] at this
      exact absurd this (by simp)
  · rename_i tot htot
    obtain ⟨hall, rfl⟩ := (agentStayTotal_eq_some_iff s a h stay tot).mp htot
    by_cases hgt : maxP <
        (stay.map (fun d => agentDayPrice s a h.hotel_id d)).sum / (stay.length : ℚ)
    · rw [if_pos hgt]
      constructor
      · intro hcon
        exact absurd hcon (by simp)
      · rintro ⟨-, hle, -⟩
        exact absurd hle (not_le.mpr hgt)
    · rw [if_neg hgt]
      simp only [Option.some.injEq]
      constructor
      · rintro hsome
        exact ⟨hall, not_lt.mp hgt, hsome.symm⟩
      · rintro ⟨-, -, rfl⟩
        rfl

/-- C4, amended: `get_best_offer` returns an offer only if it is valid
for the chosen supplier — every stay day has remaining inventory (for a
travel agent, judged on the agent's FIRST-listed allocation of the day,
as the code does) and the mean price over the stay is within the cap
(the two `iff` conjuncts characterize validity exactly); a returned
offer is a candidate with globally minimal average price, and it is the
first candidate attaining that minimum in the enumeration (each hotel's
direct offer first, then its reseller offers, hotels and resellers in
configured order); `none` is returned exactly when no candidate
evaluates to a valid offer. -/
theorem C4_best_offer_selection (cfg : SimulationConfig) (s : SupplyStore)
    (current_day : ℤ) (stay : List ℤ) (maxP : ℚ) (hne : stay ≠ []) :
    (∀ (h : Hotel) (o : Offer),
       evaluateHotelOffer s h current_day stay maxP = some o ↔
         ((∀ d ∈ stay, ∃ ds, getDailySupply s h.hotel_id d = some ds ∧
              0 < ds.hotel_rooms_remaining) ∧
          (stay.map (fun d => calculate_hotel_price h current_day d)).sum /
              (stay.length : ℚ) ≤ maxP ∧
          o = ⟨h.hotel_id, SupplierType.hotel, h.hotel_id,
               (stay.map (fun d => calculate_hotel_price h current_day d)).sum /
                 (stay.length : ℚ),
               (stay.map (fun d => calculate_hotel_price h current_day d)).sum⟩)) ∧
    (∀ (a : TravelAgent) (h : Hotel) (o : Offer),
       evaluateTravelAgentOffer s a h stay maxP = some o ↔
         ((∀ d ∈ stay, ∃ ds al, getDailySupply s h.hotel_id d = some ds ∧
              findAgentAllocation ds a.agent_id = some al ∧ 0 < al.rooms_remaining) ∧
          (stay.map (fun d => agentDayPrice s a h.hotel_id d)).sum /
              (stay.length : ℚ) ≤ maxP ∧
          o = ⟨a.agent_id, SupplierType.travelAgent, h.hotel_id,
               (stay.map (fun d => agentDayPrice s a h.hotel_id d)).sum /
                 (stay.length : ℚ),
               (stay.map (fun d => agentDayPrice s a h.hotel_id d)).sum⟩)) ∧
    (∀ o : Offer, get_best_offer cfg s current_day stay maxP = some o →
       some o ∈ offerCandidates cfg s current_day stay maxP ∧
       (∀ o', some o' ∈ offerCandidates cfg s current_day stay maxP →
          o.avg_price ≤ o'.avg_price) ∧
       (∃ pre post, offerCandidates cfg s current_day stay maxP = pre ++ some o :: post ∧
          (∀ o', some o' ∈ pre → o.avg_price < o'.avg_price) ∧
          (∀ o', some o' ∈ post → o.avg_price ≤ o'.avg_price))) ∧
    (get_best_offer cfg s current_day stay maxP = none ↔
       ∀ c ∈ offerCandidates cfg s current_day stay maxP, c = none) := by
  refine ⟨fun h o => evaluateHotelOffer_eq_some_iff s h current_day stay maxP o,
    fun a h o => evaluateTravelAgentOffer_eq_some_iff s a h stay maxP o, ?_, ?_⟩
  · intro o hbest
    unfold get_best_offer at hbest
    rcases foldl_considerOffer_some _ none o hbest with ⟨hacc, -⟩ | ⟨pre, post, hsplit, -, hpre, hpost⟩
    · exact absurd hacc (by simp)
    · refine ⟨?_, ?_, pre, post, hsplit, hpre, hpost⟩
      · rw [hsplit]
        exact List.mem_append_right pre (List.mem_cons_self _ _)
      · intro o' ho'
        rw [hsplit] at ho'
        rcases List.mem_append.mp ho' with hm | hm
        · exact le_of_lt (hpre o' hm)
        · rcases List.mem_cons.mp hm with heq | hm
          · obtain rfl : o' = o := by simpa using heq
            exact le_refl _
          · exact hpost o' hm
  · unfold get_best_offer
    rw [foldl_considerOffer_none]
    simp

/-- Witness for C4's amended theorem: with an empty configuration there
are no candidates, and `get_best_offer` returns `none`. -/
theorem C4_best_offer_selection_witness :
    get_best_offer cfgEmpty [] 0 [0] 50 = none :=
  (C4_best_offer_selection cfgEmpty [] 0 [0] 50 (List.cons_ne_nil 0 [])).2.2.2.mpr
    (fun c hc => absurd hc (List.not_mem_nil c))

/-! ## Scheduler lemmas (for C7, C8, C10) -/

theorem insertAsc_perm (x : ℤ) (l : List ℤ) : (insertAsc x l).Perm (x :: l) := by
  induction l with
  | nil => exact List.Perm.refl _
  | cons y t ih =>
    rw [insertAsc]
    split
    · exact List.Perm.refl _
    · exact (ih.cons y).trans (List.Perm.swap x y t)

theorem sortAsc_perm (l : List ℤ) : (sortAsc l).Perm l := by
  induction l with
  | nil => exact List.Perm.refl _
  | cons x t ih =>
    rw [sortAsc]
    exact (insertAsc_perm x (sortAsc t)).trans (ih.cons x)

theorem insertDesc_perm (x : ℤ) (l : List ℤ) : (insertDesc x l).Perm (x :: l) := by
  induction l with
  | nil => exact List.Perm.refl _
  | cons y t ih =>
    rw [insertDesc]
    split
    · exact List.Perm.refl _
    · exact (ih.cons y).trans (List.Perm.swap x y t)

theorem sortDesc_perm (l : List ℤ) : (sortDesc l).Perm l := by
  induction l with
  | nil => exact List.Perm.refl _
  | cons x t ih =>
    rw [sortDesc]
    exact (insertDesc_perm x (sortDesc t)).trans (ih.cons x)

theorem nodup_pyRange (lo hi : ℤ) : (pyRange lo hi).Nodup := by
  unfold pyRange
  refine List.Nodup.map ?_ (List.nodup_range _)
  intro a b hab
  simp only [add_right_inj] at hab
  exact_mod_cast hab

theorem chooseFrom_mem {avail : List ℤ} (h : avail ≠ []) (k : ℕ) :
    chooseFrom avail k ∈ avail := by
  unfold chooseFrom
  have hlen : 0 < avail.length := List.length_pos.mpr h
  have hlt : k % avail.length < avail.length := Nat.mod_lt _ hlen
  rw [List.getD_eq_get _ _ hlt]
  exact List.get_mem _ _ _

theorem removeBlock_subset {avail : List ℤ} {a b x : ℤ}
    (h : x ∈ removeBlock avail a b) : x ∈ avail :=
  List.mem_of_mem_filter h

theorem removeBlock_nodup {avail : List ℤ} (h : avail.Nodup) (a b : ℤ) :
    (removeBlock avail a b).Nodup :=
  h.filter _

theorem length_filter_not_add_length_filter (l : List ℤ) (p : ℤ → Bool) :
    (l.filter (fun x => !(p x))).length + (l.filter p).length = l.length := by
  induction l with
  | nil => rfl
  | cons x t ih =>
    rcases hx : p x with _ | _ <;>
      simp only [List.filter_cons, hx, Bool.not_true, Bool.not_false, if_pos, if_neg,
        List.length_cons, Bool.false_eq_true, Bool.true_eq_false, ite_true, ite_false] <;>
      omega

theorem removeBlock_length {avail : List ℤ} (h : avail.Nodup) (a b : ℤ) :
    avail.length ≤ (removeBlock avail a b).length + (b - a).toNat := by
  have hsplit := length_filter_not_add_length_filter avail
    (fun d => decide (a ≤ d) && decide (d < b))
  have hin : (avail.filter (fun d => decide (a ≤ d) && decide (d < b))).length ≤
      (b - a).toNat := by
    have hnd : (avail.filter (fun d => decide (a ≤ d) && decide (d < b))).Nodup :=
      h.filter _
    rw [← List.toFinset_card_of_nodup hnd]
    have hsub : (avail.filter (fun d => decide (a ≤ d) && decide (d < b))).toFinset ⊆
        Finset.Ico a b := by
      intro x hx
      rw [List.mem_toFinset] at hx
      have hp := List.of_mem_filter hx
      simp only [Bool.and_eq_true, decide_eq_true_eq] at hp
      exact Finset.mem_Ico.mpr hp
    calc (avail.filter (fun d => decide (a ≤ d) && decide (d < b))).toFinset.card
        ≤ (Finset.Ico a b).card := Finset.card_le_card hsub
      _ = (b - a).toNat := Int.card_Ico a b
  have hrb : (removeBlock avail a b).length =
      (avail.filter (fun d => !(decide (a ≤ d) && decide (d < b)))).length := rfl
  omega

theorem scheduleNoLengths_mem (year : ℤ) (picks : ℕ → ℕ) (P : ℤ → Prop) :
    ∀ (n : ℕ) (avail : List ℤ) (i : ℕ), (∀ x ∈ avail, P x) →
      ∀ y ∈ scheduleNoLengths year picks n avail i, P y := by
  intro n
  induction n with
  | zero =>
    intro avail i _ y hy
    exact absurd hy (List.not_mem_nil y)
  | succ n ih =>
    intro avail i h y hy
    rw [scheduleNoLengths] at hy
    split at hy
    · exact absurd hy (List.not_mem_nil y)
    · rename_i hne
      rcases List.mem_cons.mp hy with rfl | hy
      · exact h _ (chooseFrom_mem hne _)
      · exact ih _ _ (fun x hx => h x (removeBlock_subset hx)) y hy

theorem scheduleNoLengths_length (year : ℤ) (picks : ℕ → ℕ) :
    ∀ (n : ℕ) (avail : List ℤ) (i : ℕ), avail.Nodup →
      25 * n < avail.length + 25 →
      (scheduleNoLengths year picks n avail i).length = n := by
  intro n
  induction n with
  | zero => intro avail i _ _; rfl
  | succ n ih =>
    intro avail i hnd hlen
    have hne : avail ≠ [] := by
      intro hempty
      rw [hempty] at hlen
      simp only [List.length_nil] at hlen
      omega
    rw [scheduleNoLengths, if_neg hne, List.length_cons]
    have hrb := removeBlock_length hnd (chooseFrom avail (picks i))
      (min (chooseFrom avail (picks i) + 25) year)
    have hsize : (min (chooseFrom avail (picks i) + 25) year -
        chooseFrom avail (picks i)).toNat ≤ 25 := by
      have h1 := min_le_left (chooseFrom avail (picks i) + 25) year
      omega
    rw [ih _ (i + 1) (removeBlock_nodup hnd _ _) (by omega)]

/-- Total blockout budget of the explicit-lengths scheduler. -/
def sumBlock (ls : List ℤ) : ℕ := (ls.map (fun l => (l + 1).toNat)).sum

theorem scheduleWithLengths_mem (year : ℤ) (picks : ℕ → ℕ) (P : ℤ → Prop) :
    ∀ (ls : List ℤ) (avail : List ℤ) (i : ℕ), (∀ x ∈ avail, P x) →
      ∀ y ∈ scheduleWithLengths year picks ls avail i, P y := by
  intro ls
  induction ls with
  | nil =>
    intro avail i _ y hy
    exact absurd hy (List.not_mem_nil y)
  | cons L rest ih =>
    intro avail i h y hy
    rw [scheduleWithLengths] at hy
    split at hy
    · exact absurd hy (List.not_mem_nil y)
    · rename_i hne
      rcases List.mem_cons.mp hy with rfl | hy
      · exact h _ (chooseFrom_mem hne _)
      · exact ih _ _ (fun x hx => h x (removeBlock_subset hx)) y hy

theorem scheduleWithLengths_length_le (year : ℤ) (picks : ℕ → ℕ) :
    ∀ (ls : List ℤ) (avail : List ℤ) (i : ℕ),
      (scheduleWithLengths year picks ls avail i).length ≤ ls.length := by
  intro ls
  induction ls with
  | nil => intro avail i; exact Nat.le_refl 0
  | cons L rest ih =>
    intro avail i
    rw [scheduleWithLengths]
    split
    · exact Nat.zero_le _
    · rw [List.length_cons, List.length_cons]
      exact Nat.succ_le_succ (ih _ _)

theorem scheduleWithLengths_length (year : ℤ) (picks : ℕ → ℕ) :
    ∀ (ls : List ℤ) (avail : List ℤ) (i : ℕ), avail.Nodup →
      (∀ l ∈ ls, 1 ≤ l) → sumBlock ls ≤ avail.length →
      (scheduleWithLengths year picks ls avail i).length = ls.length := by
  intro ls
  induction ls with
  | nil => intro avail i _ _ _; rfl
  | cons L rest ih =>
    intro avail i hnd hpos hsum
    have hL : 1 ≤ L := hpos L (List.mem_cons_self L rest)
    have hsb : sumBlock (L :: rest) = (L + 1).toNat + sumBlock rest := by
      simp [sumBlock]
    have hne : avail ≠ [] := by
      intro hempty
      rw [hempty] at hsum
      rw [hsb] at hsum
      simp only [List.length_nil, Nat.le_zero] at hsum
      omega
    rw [scheduleWithLengths, if_neg hne, List.length_cons]
    have hrb := removeBlock_length hnd (chooseFrom avail (picks i))
      (min (chooseFrom avail (picks i) + L + 1) year)
    have hsize : (min (chooseFrom avail (picks i) + L + 1) year -
        chooseFrom avail (picks i)).toNat ≤ (L + 1).toNat := by
      have h1 := min_le_left (chooseFrom avail (picks i) + L + 1) year
      omega
    have hrest : sumBlock rest ≤
        (removeBlock avail (chooseFrom avail (picks i))
          (min (chooseFrom avail (picks i) + L + 1) year)).length := by
      rw [hsb] at hsum
      omega
    rw [ih _ (i + 1) (removeBlock_nodup hnd _ _)
      (fun l hl => hpos l (List.mem_cons_of_mem L hl)) hrest]
    exact (List.length_cons L rest).symm

theorem schedule_trips_bounds (num_trips : ℕ) (year : ℤ)
    (ols : Option (List ℤ)) (picks : ℕ → ℕ) :
    ∀ x ∈ schedule_trips num_trips year ols picks, 0 ≤ x ∧ x < year := by
  intro x hx
  unfold schedule_trips at hx
  have hinit : ∀ y ∈ pyRange 0 year, 0 ≤ y ∧ y < year := by
    intro y hy
    have := mem_pyRange.mp hy
    omega
  cases ols with
  | none =>
    rw [(sortAsc_perm _).mem_iff] at hx
    exact scheduleNoLengths_mem year picks _ num_trips _ 0 hinit x hx
  | some ls =>
    rw [(sortAsc_perm _).mem_iff] at hx
    exact scheduleWithLengths_mem year picks _ (sortDesc ls) _ 0 hinit x hx

theorem schedule_trips_casual_length (picks : ℕ → ℕ) :
    (schedule_trips 2 100 none picks).length = 2 := by
  unfold schedule_trips
  rw [(sortAsc_perm _).length_eq]
  apply scheduleNoLengths_length
  · exact nodup_pyRange 0 100
  · rw [length_pyRange]
    omega

theorem schedule_trips_lengths_le (num_trips : ℕ) (ls : List ℤ) (picks : ℕ → ℕ) :
    (schedule_trips num_trips 100 (some ls) picks).length ≤ ls.length := by
  unfold schedule_trips
  rw [(sortAsc_perm _).length_eq]
  calc (scheduleWithLengths 100 picks (sortDesc ls) (pyRange 0 100) 0).length
      ≤ (sortDesc ls).length := scheduleWithLengths_length_le 100 picks _ _ 0
    _ = ls.length := (sortDesc_perm ls).length_eq

theorem schedule_trips_lengths_eq (num_trips : ℕ) (ls : List ℤ) (picks : ℕ → ℕ)
    (hpos : ∀ l ∈ ls, 1 ≤ l) (hsum : sumBlock ls ≤ 100) :
    (schedule_trips num_trips 100 (some ls) picks).length = ls.length := by
  unfold schedule_trips
  rw [(sortAsc_perm _).length_eq]
  rw [scheduleWithLengths_length 100 picks (sortDesc ls) _ 0 (nodup_pyRange 0 100)
    (fun l hl => hpos l ((sortDesc_perm ls).mem_iff.mp hl)) ?_]
  · exact (sortDesc_perm ls).length_eq
  · have hperm : sumBlock (sortDesc ls) = sumBlock ls := by
      unfold sumBlock
      exact ((sortDesc_perm ls).map _).sum_eq
    rw [hperm, length_pyRange]
    omega

/-! ## C7 and C10: generated-demand bounds -/

theorem snd_mem_of_mem_enum {α : Type} {p : ℕ × α} {l : List α} (h : p ∈ l.enum) :
    p.2 ∈ l := by
  rw [List.mem_enum_iff_get?] at h
  exact List.get?_mem h

theorem fst_lt_of_mem_enum {α : Type} {p : ℕ × α} {l : List α} (h : p ∈ l.enum) :
    p.1 < l.length := by
  rw [List.mem_enum_iff_get?] at h
  obtain ⟨hlt, -⟩ := List.get?_eq_some.mp h
  exact hlt

theorem casualItinerary_demands (draws : CasualDraws) (user_id : String) (p : ℕ × ℤ) :
    (casualItinerary draws user_id p).demands =
      casualDemands p.2 (min 99 (p.2 + max 1 (draws.lengthDraw p.1) - 1))
        (casualShopWindow p.2 (draws.shopStartDraw p.1) (draws.shopEndDraw p.1)).1
        (casualShopWindow p.2 (draws.shopStartDraw p.1) (draws.shopEndDraw p.1)).2
        (draws.basePriceDraw p.1 * draws.multDraw p.1) (draws.basePriceDraw p.1) := rfl

theorem businessItinerary_demands (draws : BusinessDraws) (user_id : String) (p : ℕ × ℤ) :
    (businessItinerary draws user_id p).demands =
      (pyRange (max (p.2 - draws.shopStartDraw p.1) (-20)) ((p.2 - 1) + 1)).map
        (fun d => (⟨d, p.2,
          min 99 (p.2 + (businessTripLengths draws).getD p.1 0 - 1),
          draws.priceDraw p.1⟩ : Demand)) := rfl

theorem casualShopWindow_spec {start a b : ℤ} (hs0 : 0 ≤ start)
    (ha : 20 ≤ a) (hb5 : 5 ≤ b) (hb15 : b ≤ 15) :
    -20 ≤ (casualShopWindow start a b).1 ∧
    (casualShopWindow start a b).1 < (casualShopWindow start a b).2 ∧
    (casualShopWindow start a b).2 < start := by
  unfold casualShopWindow
  simp only
  rcases max_cases (start - a) (-20 : ℤ) with ⟨hm, hle⟩ | ⟨hm, hlt⟩ <;>
    (by_cases hc : start - b ≤ max (start - a) (-20)) <;>
    [rw [if_pos hc]; rw [if_neg hc]; rw [if_pos hc]; rw [if_neg hc]] <;>
    omega

theorem businessTripLengths_pos (draws : BusinessDraws) :
    ∀ l ∈ businessTripLengths draws, 1 ≤ l := by
  intro l hl
  unfold businessTripLengths at hl
  rcases List.mem_cons.mp hl with rfl | hl
  · exact le_max_left 1 _
  · rw [List.mem_map] at hl
    obtain ⟨i, -, rfl⟩ := hl
    exact le_max_left 1 _

theorem businessTripLengths_length (draws : BusinessDraws) :
    (businessTripLengths draws).length = 5 := rfl

/-- C7: every Demand produced by the casual or the business generator —
whatever the gaussian/uniform draws, with the `randint` draws inside
their supports — satisfies `-20 <= shopping_date < stay_start_date` and
`0 <= stay_start_date <= stay_end_date <= 99`. -/
theorem C7_generated_demand_bounds (cd : CasualDraws) (bd : BusinessDraws)
    (uc ub : String)
    (hA : ∀ i, 20 ≤ cd.shopStartDraw i ∧ cd.shopStartDraw i ≤ 50)
    (hB : ∀ i, 5 ≤ cd.shopEndDraw i ∧ cd.shopEndDraw i ≤ 15)
    (hC : ∀ i, 3 ≤ bd.shopStartDraw i ∧ bd.shopStartDraw i ≤ 7) :
    ∀ itin ∈ generate_casual_traveller cd uc ++ generate_business_traveller bd ub,
      ∀ d ∈ itin.demands,
        -20 ≤ d.shopping_date ∧ d.shopping_date < d.stay_start_date ∧
        0 ≤ d.stay_start_date ∧ d.stay_start_date ≤ d.stay_end_date ∧
        d.stay_end_date ≤ 99 := by
  intro itin hitin dem hdem
  rcases List.mem_append.mp hitin with hmem | hmem
  · unfold generate_casual_traveller at hmem
    rw [List.mem_map] at hmem
    obtain ⟨p, hp, rfl⟩ := hmem
    obtain ⟨hs0, hs99⟩ := schedule_trips_bounds 2 100 none cd.pick p.2 (snd_mem_of_mem_enum hp)
    rw [casualItinerary_demands] at hdem
    unfold casualDemands at hdem
    rw [List.mem_map] at hdem
    obtain ⟨x, hx, rfl⟩ := hdem
    obtain ⟨hx1, hx2⟩ := mem_pyRange.mp hx
    obtain ⟨ha1, -⟩ := hA p.1
    obtain ⟨hb1, hb2⟩ := hB p.1
    obtain ⟨hw1, hw2, hw3⟩ := casualShopWindow_spec hs0 ha1 hb1 hb2
    have hlen : 1 ≤ max 1 (cd.lengthDraw p.1) := le_max_left _ _
    have hend1 : p.2 ≤ min 99 (p.2 + max 1 (cd.lengthDraw p.1) - 1) := by
      rcases min_cases (99 : ℤ) (p.2 + max 1 (cd.lengthDraw p.1) - 1) with ⟨hm, h'⟩ | ⟨hm, h'⟩ <;>
        omega
    have hend2 : min 99 (p.2 + max 1 (cd.lengthDraw p.1) - 1) ≤ 99 := min_le_left _ _
    exact ⟨by dsimp only; omega, by dsimp only; omega, by dsimp only; omega,
      by dsimp only; omega, by dsimp only; omega⟩
  · unfold generate_business_traveller at hmem
    rw [List.mem_map] at hmem
    obtain ⟨p, hp, rfl⟩ := hmem
    obtain ⟨hs0, hs99⟩ := schedule_trips_bounds 5 100 (some (businessTripLengths bd))
      bd.pick p.2 (snd_mem_of_mem_enum hp)
    rw [businessItinerary_demands] at hdem
    rw [List.mem_map] at hdem
    obtain ⟨x, hx, rfl⟩ := hdem
    obtain ⟨hx1, hx2⟩ := mem_pyRange.mp hx
    have hL : 1 ≤ (businessTripLengths bd).getD p.1 0 := by
      have hp1 : p.1 < (businessTripLengths bd).length := by
        have h1 := fst_lt_of_mem_enum hp
        have h2 := schedule_trips_lengths_le 5 (businessTripLengths bd) bd.pick
        omega
      rw [List.getD_eq_get _ _ hp1]
      exact businessTripLengths_pos bd _ (List.get_mem _ _ _)
    have hend1 : p.2 ≤ min 99 (p.2 + (businessTripLengths bd).getD p.1 0 - 1) := by
      rcases min_cases (99 : ℤ) (p.2 + (businessTripLengths bd).getD p.1 0 - 1) with
        ⟨hm, h'⟩ | ⟨hm, h'⟩ <;> omega
    have hend2 : min 99 (p.2 + (businessTripLengths bd).getD p.1 0 - 1) ≤ 99 :=
      min_le_left _ _
    have hw1 : -20 ≤ max (p.2 - bd.shopStartDraw p.1) (-20) := le_max_right _ _
    exact ⟨by dsimp only; omega, by dsimp only; omega, by dsimp only; omega,
      by dsimp only; omega, by dsimp only; omega⟩

/-- Witness draws for C7/C10: scheduler always picks the first available
day; all gaussian draws at their means; `randint` draws at their lower
bounds. -/
def cDrawsW : CasualDraws :=
  ⟨fun _ => 0, fun _ => 8, fun _ => 110, fun _ => 4/5, fun _ => 20, fun _ => 5⟩

/-- Witness draws for the business generator. -/
def bDrawsW : BusinessDraws := ⟨fun _ => 0, 20, fun _ => 5, fun _ => 150, fun _ => 3⟩

instance : Inhabited Demand := ⟨⟨0, 0, 0, 0⟩⟩

/-- The first demand generated for the C7 witness draws. -/
def demW : Demand :=
  (((generate_casual_traveller cDrawsW "u" ++ generate_business_traveller bDrawsW "v").headD
    default).demands.headD default)

/-- Witness for C7 at the concrete draws `cDrawsW`/`bDrawsW`. -/
theorem C7_generated_demand_bounds_witness :
    -20 ≤ demW.shopping_date ∧ demW.shopping_date < demW.stay_start_date ∧
    0 ≤ demW.stay_start_date ∧ demW.stay_start_date ≤ demW.stay_end_date ∧
    demW.stay_end_date ≤ 99 :=
  C7_generated_demand_bounds cDrawsW bDrawsW "u" "v"
    (fun _ => ⟨by norm_num [cDrawsW], by norm_num [cDrawsW]⟩)
    (fun _ => ⟨by norm_num [cDrawsW], by norm_num [cDrawsW]⟩)
    (fun _ => ⟨by norm_num [bDrawsW], by norm_num [bDrawsW]⟩)
    ((generate_casual_traveller cDrawsW "u" ++ generate_business_traveller bDrawsW "v").headD
      default)
    (List.mem_cons_self _ _) demW (List.mem_cons_self _ _)

/-- C10: for casual itineraries, after clamping `shop_start` to -20 and
the `shop_end <= shop_start` adjustment, `shop_start < shop_end` holds
(given a trip start from the scheduler and `randint` draws in their
supports), so the interpolation divisor `shop_end - shop_start` is
nonzero and every casual itinerary carries at least 2 demands. -/
theorem C10_casual_interpolation_well_defined (cd : CasualDraws) (u : String)
    (hA : ∀ i, 20 ≤ cd.shopStartDraw i ∧ cd.shopStartDraw i ≤ 50)
    (hB : ∀ i, 5 ≤ cd.shopEndDraw i ∧ cd.shopEndDraw i ≤ 15) :
    (∀ start a b : ℤ, 0 ≤ start → 20 ≤ a → 5 ≤ b → b ≤ 15 →
       (casualShopWindow start a b).1 < (casualShopWindow start a b).2 ∧
       ((casualShopWindow start a b).2 - (casualShopWindow start a b).1 : ℤ) ≠ 0) ∧
    ∀ itin ∈ generate_casual_traveller cd u, 2 ≤ itin.demands.length := by
  constructor
  · intro start a b h0 ha hb5 hb15
    obtain ⟨-, hlt, -⟩ := casualShopWindow_spec h0 ha hb5 hb15
    exact ⟨hlt, by omega⟩
  · intro itin hmem
    unfold generate_casual_traveller at hmem
    rw [List.mem_map] at hmem
    obtain ⟨p, hp, rfl⟩ := hmem
    obtain ⟨hs0, -⟩ := schedule_trips_bounds 2 100 none cd.pick p.2 (snd_mem_of_mem_enum hp)
    rw [casualItinerary_demands]
    unfold casualDemands
    rw [List.length_map, length_pyRange]
    obtain ⟨ha1, -⟩ := hA p.1
    obtain ⟨hb1, hb2⟩ := hB p.1
    obtain ⟨-, hlt, -⟩ := casualShopWindow_spec hs0 ha1 hb1 hb2
    omega

/-- Witness for C10 at the concrete draws `cDrawsW`. -/
theorem C10_casual_interpolation_well_defined_witness :
    ((casualShopWindow 0 20 5).1 < (casualShopWindow 0 20 5).2) ∧
    2 ≤ ((generate_casual_traveller cDrawsW "u").headD default).demands.length :=
  ⟨((C10_casual_interpolation_well_defined cDrawsW "u"
      (fun _ => ⟨by norm_num [cDrawsW], by norm_num [cDrawsW]⟩)
      (fun _ => ⟨by norm_num [cDrawsW], by norm_num [cDrawsW]⟩)).1 0 20 5
      (by norm_num) (by norm_num) (by norm_num) (by norm_num)).1,
   (C10_casual_interpolation_well_defined cDrawsW "u"
      (fun _ => ⟨by norm_num [cDrawsW], by norm_num [cDrawsW]⟩)
      (fun _ => ⟨by norm_num [cDrawsW], by norm_num [cDrawsW]⟩)).2 _
      (List.mem_cons_self _ _)⟩

/-! ## C3: at-most-one booking per itinerary -/

theorem processItinerary_booked {cfg : SimulationConfig} {day : ℤ} {uid : String}
    {itin : Itinerary} {s : SupplyStore} (h : itin.is_booked = true) :
    processItinerary cfg day uid itin s = (itin, s, none) := by
  unfold processItinerary
  rw [if_pos h]

theorem processItinList_getD_booked (cfg : SimulationConfig) (day : ℤ) (uid : String) :
    ∀ (itins : List Itinerary) (s : SupplyStore) (j : ℕ),
      (itins.getD j default).is_booked = true →
      ((processItinList cfg day uid itins s).1).getD j default = itins.getD j default := by
  intro itins
  induction itins with
  | nil =>
    intro s j h
    exact absurd h (by simp [List.getD])
  | cons itin rest ih =>
    intro s j h
    rw [processItinList]
    cases j with
    | zero =>
      simp only [List.getD_cons_zero] at h ⊢
      rw [processItinerary_booked h]
    | succ j =>
      simp only [List.getD_cons_succ] at h ⊢
      exact ih _ j h

theorem processUsers_getItin_booked (cfg : SimulationConfig) (day : ℤ) :
    ∀ (users : List (String × List Itinerary)) (s : SupplyStore) (u j : ℕ),
      ((users.getD u ("", [])).2.getD j default).is_booked = true →
      (((processUsers cfg day users s).1).getD u ("", [])).2.getD j default =
        (users.getD u ("", [])).2.getD j default := by
  intro users
  induction users with
  | nil =>
    intro s u j h
    exact absurd h (by simp [List.getD])
  | cons user rest ih =>
    intro s u j h
    obtain ⟨uid, itins⟩ := user
    rw [processUsers]
    cases u with
    | zero =>
      simp only [List.getD_cons_zero] at h ⊢
      exact processItinList_getD_booked cfg day uid itins s j h
    | succ u =>
      simp only [List.getD_cons_succ] at h ⊢
      exact ih _ u j h

theorem process_daily_shopping_getItin_booked (cfg : SimulationConfig) (d : ℤ)
    (st : SimState) (u j : ℕ) (h : (getItin st u j).is_booked = true) :
    getItin ((process_daily_shopping cfg d st).1) u j = getItin st u j :=
  processUsers_getItin_booked cfg d st.1 (update_hotel_prices cfg d st.2) u j h

theorem processDays_getItin_booked (cfg : SimulationConfig) :
    ∀ (days : List ℤ) (st : SimState) (u j : ℕ),
      (getItin st u j).is_booked = true →
      getItin ((processDays cfg days st).1) u j = getItin st u j := by
  intro days
  induction days with
  | nil => intro st u j _; rfl
  | cons d rest ih =>
    intro st u j h
    rw [processDays]
    have hday := process_daily_shopping_getItin_booked cfg d st u j h
    have h' : (getItin ((process_daily_shopping cfg d st).1) u j).is_booked = true := by
      rw [hday]
      exact h
    exact (ih _ u j h').trans hday

theorem stateScan_head (cfg : SimulationConfig) :
    ∀ (days : List ℤ) (st : SimState), ∃ t, stateScan cfg days st = st :: t := by
  intro days st
  cases days with
  | nil => exact ⟨[], rfl⟩
  | cons d rest => exact ⟨_, rfl⟩

theorem countRises_stateScan_booked (cfg : SimulationConfig) (u j : ℕ) :
    ∀ (days : List ℤ) (st : SimState), (getItin st u j).is_booked = true →
      countRises ((stateScan cfg days st).map (fun x => (getItin x u j).is_booked)) = 0 := by
  intro days
  induction days with
  | nil => intro st _; rfl
  | cons d rest ih =>
    intro st h
    obtain ⟨t, ht⟩ := stateScan_head cfg rest (process_daily_shopping cfg d st).1
    have h' : (getItin ((process_daily_shopping cfg d st).1) u j).is_booked = true := by
      rw [process_daily_shopping_getItin_booked cfg d st u j h]
      exact h
    have h0 := ih (process_daily_shopping cfg d st).1 h'
    rw [ht, List.map_cons, h'] at h0
    rw [stateScan, ht, List.map_cons, List.map_cons, countRises, h, h', h0]
    simp

theorem countRises_stateScan_le_one (cfg : SimulationConfig) (u j : ℕ) :
    ∀ (days : List ℤ) (st : SimState),
      countRises ((stateScan cfg days st).map (fun x => (getItin x u j).is_booked)) ≤ 1 := by
  intro days
  induction days with
  | nil => intro st; exact Nat.zero_le 1
  | cons d rest ih =>
    intro st
    obtain ⟨t, ht⟩ := stateScan_head cfg rest (process_daily_shopping cfg d st).1
    rw [stateScan, ht, List.map_cons, List.map_cons, countRises]
    cases hflag : (getItin st u j).is_booked with
    | true =>
      have h' : (getItin ((process_daily_shopping cfg d st).1) u j).is_booked = true := by
        rw [process_daily_shopping_getItin_booked cfg d st u j hflag]
        exact hflag
      have h0 := countRises_stateScan_booked cfg u j rest _ h'
      rw [ht, List.map_cons, h'] at h0
      rw [h', h0]
      simp
    | false =>
      cases hflag' : (getItin ((process_daily_shopping cfg d st).1) u j).is_booked with
      | true =>
        have h0 := countRises_stateScan_booked cfg u j rest _ hflag'
        rw [ht, List.map_cons, hflag'] at h0
        rw [h0]
        simp
      | false =>
        have hle := ih (process_daily_shopping cfg d st).1
        rw [ht, List.map_cons, hflag'] at hle
        simpa using hle

/-- C3: a booked itinerary is inert — processing it returns it unchanged,
with the supply store untouched and no booking emitted — so across any
run of `process_daily_shopping` over any day list, an itinerary that is
booked stays booked and entirely unchanged (never evaluated, never
offered, never booked again), and its `is_booked` flag rises from false
to true at most once along the run's state trajectory (never reset). -/
theorem C3_at_most_one_booking_per_itinerary (cfg : SimulationConfig)
    (days : List ℤ) (st : SimState) (u j : ℕ) :
    (∀ (d : ℤ) (uid : String) (itin : Itinerary) (s : SupplyStore),
       itin.is_booked = true → processItinerary cfg d uid itin s = (itin, s, none)) ∧
    ((getItin st u j).is_booked = true →
       getItin ((processDays cfg days st).1) u j = getItin st u j) ∧
    countRises ((stateScan cfg days st).map (fun x => (getItin x u j).is_booked)) ≤ 1 :=
  ⟨fun _ _ _ _ h => processItinerary_booked h,
   processDays_getItin_booked cfg days st u j,
   countRises_stateScan_le_one cfg u j days st⟩

/-- A booked itinerary for the C3 witness. -/
def bkItin : Itinerary := ⟨"u", 0, [], true, none, none, none, none⟩

/-- A one-user state whose only itinerary is already booked. -/
def st3W : SimState := ([("u", [bkItin])], [])

/-- Witness for C3: the booked itinerary is returned untouched with no
booking, survives a run over day 0 unchanged, and its flag trajectory has
no rise. -/
theorem C3_at_most_one_booking_per_itinerary_witness :
    processItinerary cfgEmpty 0 "u" bkItin [] = (bkItin, [], none) ∧
    getItin ((processDays cfgEmpty [0] st3W).1) 0 0 = getItin st3W 0 0 ∧
    countRises ((stateScan cfgEmpty [0] st3W).map (fun x => (getItin x 0 0).is_booked)) ≤ 1 :=
  ⟨(C3_at_most_one_booking_per_itinerary cfgEmpty [0] st3W 0 0).1 0 "u" bkItin [] rfl,
   (C3_at_most_one_booking_per_itinerary cfgEmpty [0] st3W 0 0).2.1 rfl,
   (C3_at_most_one_booking_per_itinerary cfgEmpty [0] st3W 0 0).2.2⟩

/-! ## C8: persona trip counts -/

theorem generate_casual_traveller_length (cd : CasualDraws) (uid : String) :
    (generate_casual_traveller cd uid).length = 2 := by
  unfold generate_casual_traveller
  rw [List.length_map, List.enum_length, schedule_trips_casual_length]

theorem generate_business_traveller_length_le (bd : BusinessDraws) (uid : String) :
    (generate_business_traveller bd uid).length ≤ 5 := by
  unfold generate_business_traveller
  rw [List.length_map, List.enum_length]
  have h := schedule_trips_lengths_le 5 (businessTripLengths bd) bd.pick
  have h5 := businessTripLengths_length bd
  omega

theorem sumBlock_cast (ls : List ℤ) (h : ∀ l ∈ ls, 1 ≤ l) :
    (sumBlock ls : ℤ) = ls.sum + ls.length := by
  induction ls with
  | nil => simp [sumBlock]
  | cons L t ih =>
    have h1 : 1 ≤ L := h L (List.mem_cons_self L t)
    have h2 := ih (fun l hl => h l (List.mem_cons_of_mem L hl))
    simp only [sumBlock, List.map_cons, List.sum_cons, List.length_cons] at h2 ⊢
    rw [Nat.cast_add, Int.toNat_of_nonneg (by omega : (0 : ℤ) ≤ L + 1)]
    push_cast at h2 ⊢
    omega

theorem generate_business_traveller_length_eq (bd : BusinessDraws) (uid : String)
    (hsum : (businessTripLengths bd).sum ≤ 94) :
    (generate_business_traveller bd uid).length = 5 := by
  unfold generate_business_traveller
  rw [List.length_map, List.enum_length]
  have hpos := businessTripLengths_pos bd
  have hcast := sumBlock_cast (businessTripLengths bd) hpos
  have h5 := businessTripLengths_length bd
  have hsb : sumBlock (businessTripLengths bd) ≤ 100 := by
    rw [h5] at hcast
    omega
  rw [schedule_trips_lengths_eq 5 (businessTripLengths bd) bd.pick hpos hsb, h5]

/-- The business draws of the C8 counterexample: the long trip's gaussian
draw comes out at 100, so its blockout wipes the whole availability set. -/
def bDrawsCex : BusinessDraws := ⟨fun _ => 0, 100, fun _ => 1, fun _ => 150, fun _ => 3⟩

/-- Counterexample to C8: with `total_users = 1`, `proportion_casual = 0`
and a business draw whose long trip length is 100 starting at day 0, the
sole (business) traveller ends up with exactly ONE itinerary, not five —
`_schedule_trips` exhausts its availability set and stops early. -/
theorem C8_counterexample_business_lossy_scheduling :
    (generate_demand 1 0 (fun _ => cDrawsW) (fun _ => bDrawsCex)).map
        (fun u => u.2.length) = [1] ∧ (1 : ℕ) ≠ 5 := by
  refine ⟨?_, by decide⟩
  have h1 : ((1:ℕ):ℚ) * 0 = 0 := by norm_num
  have h0 : pyInt (((1:ℕ):ℚ) * 0) = 0 := by rw [h1]; decide
  simp only [generate_demand, h0]
  decide

/-- C8, corrected: `generate_demand` with `total_users = N` and
`proportion_casual = p >= 0` produces exactly `floor(N*p)` casual
travellers (Python's `int()` truncation coincides with floor on the
nonnegative product), each with exactly 2 itineraries, followed by
`N - floor(N*p)` business travellers; each business traveller owns AT
MOST 5 itineraries, and exactly 5 whenever that traveller's five drawn
trip lengths (after the floor at 1) sum to at most 94 — larger draws can
exhaust the 100-day availability set, which terminates scheduling early
(accepted lossy behaviour per the spec's own Trip Scheduler section). -/
theorem C8_persona_trip_counts (N : ℕ) (p : ℚ) (cd : ℕ → CasualDraws)
    (bd : ℕ → BusinessDraws) (hp : 0 ≤ p) :
    pyInt ((N : ℚ) * p) = Int.floor ((N : ℚ) * p) ∧
    (generate_demand N p cd bd).length =
      (pyInt ((N : ℚ) * p)).toNat +
        ((N : ℤ) - ((pyInt ((N : ℚ) * p)).toNat : ℤ)).toNat ∧
    (∀ i : ℕ, i < (pyInt ((N : ℚ) * p)).toNat →
       ((generate_demand N p cd bd).getD i ("", [])).1 = "casual-" ++ pad3 (i + 1) ∧
       ((generate_demand N p cd bd).getD i ("", [])).2.length = 2) ∧
    (∀ i : ℕ, (pyInt ((N : ℚ) * p)).toNat ≤ i →
       i < (generate_demand N p cd bd).length →
       ((generate_demand N p cd bd).getD i ("", [])).1 =
         "business-" ++ pad3 (i - (pyInt ((N : ℚ) * p)).toNat + 1) ∧
       ((generate_demand N p cd bd).getD i ("", [])).2.length ≤ 5 ∧
       ((businessTripLengths (bd (i - (pyInt ((N : ℚ) * p)).toNat))).sum ≤ 94 →
         ((generate_demand N p cd bd).getD i ("", [])).2.length = 5)) := by
  have hq : ¬((N : ℚ) * p < 0) :=
    not_lt.mpr (mul_nonneg (Nat.cast_nonneg N) hp)
  have hfloor : pyInt ((N : ℚ) * p) = Int.floor ((N : ℚ) * p) := by
    unfold pyInt
    rw [if_neg hq]
    rw [Rat.floor_def', Rat.floor_def]
  refine ⟨hfloor, ?_, ?_, ?_⟩
  · unfold generate_demand
    rw [List.length_append, List.length_map, List.length_map,
      List.length_range, List.length_range]
  · intro i hi
    unfold generate_demand
    have hlt : i < ((List.range (pyInt ((N : ℚ) * p)).toNat).map
        (fun i => ("casual-" ++ pad3 (i + 1),
          generate_casual_traveller (cd i) ("casual-" ++ pad3 (i + 1))))).length := by
      rw [List.length_map, List.length_range]
      exact hi
    rw [List.getD_append _ _ _ _ hlt, List.getD_eq_getElem _ _ hlt]
    simp only [List.getElem_map, List.getElem_range]
    exact ⟨trivial, generate_casual_traveller_length _ _⟩
  · intro i hge hilen
    unfold generate_demand at hilen ⊢
    have hlen1 : ((List.range (pyInt ((N : ℚ) * p)).toNat).map
        (fun i => ("casual-" ++ pad3 (i + 1),
          generate_casual_traveller (cd i) ("casual-" ++ pad3 (i + 1))))).length =
        (pyInt ((N : ℚ) * p)).toNat := by
      rw [List.length_map, List.length_range]
    rw [List.getD_append_right _ _ _ _ (by rw [hlen1]; exact hge), hlen1]
    rw [List.length_append, hlen1, List.length_map, List.length_range] at hilen
    have hklt : i - (pyInt ((N : ℚ) * p)).toNat <
        ((List.range (((N : ℤ) - ((pyInt ((N : ℚ) * p)).toNat : ℤ)).toNat)).map
          (fun i => ("business-" ++ pad3 (i + 1),
            generate_business_traveller (bd i) ("business-" ++ pad3 (i + 1))))).length := by
      rw [List.length_map, List.length_range]
      omega
    rw [List.getD_eq_getElem _ _ hklt]
    simp only [List.getElem_map, List.getElem_range]
    exact ⟨trivial, generate_business_traveller_length_le _ _,
      fun hsum => generate_business_traveller_length_eq _ _ hsum⟩

/-- Witness for C8's corrected theorem at `N = 2`, `p = 1/2`: one casual
traveller (with 2 itineraries) and one business traveller. -/
theorem C8_persona_trip_counts_witness :
    pyInt (((2 : ℕ) : ℚ) * (1/2)) = Int.floor (((2 : ℕ) : ℚ) * (1/2)) ∧
    (generate_demand 2 (1/2) (fun _ => cDrawsW) (fun _ => bDrawsW)).length = 2 := by
  have h := C8_persona_trip_counts 2 (1/2) (fun _ => cDrawsW) (fun _ => bDrawsW)
    (by norm_num)
  have hnc : pyInt (((2 : ℕ) : ℚ) * (1/2)) = 1 := by
    rw [h.1]
    norm_num
  refine ⟨h.1, ?_⟩
  rw [h.2.1, hnc]
  decide

end HotelSim











